import Mathlib

/-!
DUT-EM fuel-level sensor emulator (`emulator.go`)

A shallow embedding of the Go package `dutem`: the channel store
(`Emulator`, `FuelParams` and the five mutators), the two encoders
(`convertLevel`, `convertTemp`) and the frame loop run by the goroutine that
`Start` spawns.

Modelling conventions.

* A `float64` is an `F64`: a finite value (a rational; the two zeros are not
  told apart), an infinity or NaN. Arithmetic rounds the exact result to the
  nearest `float64`, ties to even (`roundF64`); comparisons with NaN are
  false. A conversion of a floating-point value that the integer type cannot
  represent is implementation-dependent in Go; the model returns
  `outOfRangeUint16` there and no theorem below rests on that value.
* Go `int` is a two's-complement machine integer of `intBits = 64` bits; the
  width is a parameter of `wrapInt` and `convertTempAt`, and `convertTemp` is
  the 64-bit instance. `uint`, `uint16`, `uint32` and `byte` values are
  naturals reduced modulo `2 ^ w`.
* A pointer is an `Option`: `none` is `nil`.
* Console output (`fmt.Println`) is not traced; bus sends and sleeps are.
* Concurrency is an interleaving of events on a `System`: calls of the caller
  and steps of the goroutines, each step atomic. A step of the inner loop is
  one whole loop body (build, send, sleep); the body reads only the copy of
  the array made when the pass began, so nothing is lost by this granularity.
-/

namespace Dutem

/-! ## Constants -/

/-- Go: `const baseDUT = uint32(0x0CF60664)`. -/
def baseDUT : Nat := 0x0CF60664

/-- Go: `const numSensors = 8`. -/
abbrev numSensors : Nat := 8

/-- Width in bits of the Go type `int` (and `uint`). -/
def intBits : Nat := 64

/-! ## Floating point -/

/-- The integer nearest to `q`, the even one of the two when `q` lies half-way. -/
def roundHalfEven (q : ℚ) : Int :=
  if Int.fract q < 1 / 2 then ⌊q⌋
  else if 1 / 2 < Int.fract q then ⌊q⌋ + 1
  else if ⌊q⌋ % 2 = 0 then ⌊q⌋ else ⌊q⌋ + 1

/-- The binary exponent of the `float64` binade of `x`: `⌊log₂ |x|⌋`, and -1022
(the exponent of the smallest normal numbers) for everything smaller. -/
def binade (x : ℚ) : Int :=
  max (Int.log 2 |x|) (-1022)

/-- The unit in the last place: the distance between neighbouring `float64`
values in the binade of `x`, with 53 significant bits. -/
def ulp (x : ℚ) : ℚ :=
  2 ^ (binade x - 52)

/-- The exact value `x` rounded to the nearest `float64`, ties to even (IEEE 754
binary64, the rounding of Go's `float64` arithmetic), as a rational; a
magnitude of `2 ^ 1024` or more stands for an overflow. -/
def roundF64 (x : ℚ) : ℚ :=
  roundHalfEven (x / ulp x) * ulp x

/-- A value of the Go type `float64`. -/
inductive F64 where
  | finite (value : ℚ)
  | posInf
  | negInf
  | nan
  deriving DecidableEq

/-- The `float64` nearest to the exact value `x`: what a decimal constant of
the program text or the exact result of an operation becomes. -/
def F64.ofRat (x : ℚ) : F64 :=
  if |roundF64 x| < 2 ^ 1024 then F64.finite (roundF64 x)
  else if 0 < x then F64.posInf else F64.negInf

/-- Go: `a < b` on `float64`; false when an operand is NaN. -/
def F64.lt : F64 → F64 → Bool
  | F64.finite a, F64.finite b => decide (a < b)
  | F64.finite _, F64.posInf => true
  | F64.negInf, F64.finite _ => true
  | F64.negInf, F64.posInf => true
  | _, _ => false

/-- The sign of a `float64` as -1, 0 or 1 (0 for zero and for NaN). -/
def F64.sign : F64 → Int
  | F64.finite a => if 0 < a then 1 else if a < 0 then -1 else 0
  | F64.posInf => 1
  | F64.negInf => -1
  | F64.nan => 0

/-- Go: `a * b` on `float64`: the exact product rounded; NaN for a NaN operand
and for zero times infinity. -/
def F64.mul : F64 → F64 → F64
  | F64.finite a, F64.finite b => F64.ofRat (a * b)
  | F64.nan, _ => F64.nan
  | _, F64.nan => F64.nan
  | a, b =>
    if a.sign * b.sign = 0 then F64.nan
    else if 0 < a.sign * b.sign then F64.posInf else F64.negInf

/-! ## Data model -/

/-- Go: `type FuelParams struct { Enabled bool; Level float64; Temperature int }`. -/
structure FuelParams where
  Enabled : Bool
  Level : F64
  Temperature : Int
  deriving DecidableEq

/-- Go: `type Emulator struct { Enabled bool; Sensors [numSensors]FuelParams }`. -/
structure Emulator where
  Enabled : Bool
  Sensors : Fin numSensors → FuelParams

/-! ## Machine arithmetic -/

/-- Reduction of a mathematical integer to a signed two's-complement integer
of `bits` bits (what Go's `+` on `int` returns). -/
def wrapInt (bits : Nat) (x : Int) : Int :=
  (x + 2 ^ (bits - 1)) % 2 ^ bits - 2 ^ (bits - 1)

/-- Conversion of a signed integer to an unsigned one of `bits` bits
(Go: `uint(x)`, `uint32(x)`, `byte(x)`): the value modulo `2 ^ bits`. -/
def toUnsigned (bits : Nat) (x : Int) : Nat :=
  (x % 2 ^ bits).toNat

/-- Conversion of a floating-point value to an integer: the fraction is
discarded (truncation towards zero). -/
def truncate (x : ℚ) : Int :=
  Int.tdiv x.num x.den

/-- The result of converting to `uint16` a floating-point value that `uint16`
cannot represent (NaN, an infinity, a value whose integer part is outside
0..65535). Go leaves it implementation-dependent; 0 is what the common
targets produce for NaN. -/
def outOfRangeUint16 : Nat := 0

/-- Go: `uint16(x)` for a `float64` `x`: the fraction is discarded. -/
def F64.toUint16 : F64 → Nat
  | F64.finite x =>
    if 0 ≤ truncate x ∧ truncate x < 2 ^ 16 then (truncate x).toNat else outOfRangeUint16
  | _ => outOfRangeUint16

/-! ## Encoders -/

/-- Go:
```go
func convertLevel(level float64) uint16 {
	lvl := level
	if lvl < 0. { lvl = 0. }
	if lvl > 1.0 { lvl = 1.0 }
	return uint16(10000 * lvl)
}
``` -/
def convertLevel (level : F64) : Nat :=
  let lvl := level
  let lvl := if F64.lt lvl (F64.finite 0) then F64.finite 0 else lvl
  let lvl := if F64.lt (F64.finite 1) lvl then F64.finite 1 else lvl
  F64.toUint16 (F64.mul (F64.finite 10000) lvl)

/-- Go, for an `int` of `bits` bits:
```go
func convertTemp(temper int) byte {
	iTemp := temper + 40
	if iTemp < 0 { iTemp = 0 }
	if iTemp > 255 { iTemp = 255 }
	return byte(uint(iTemp))
}
``` -/
def convertTempAt (bits : Nat) (temper : Int) : Nat :=
  let iTemp := wrapInt bits (temper + 40)
  let iTemp := if iTemp < 0 then 0 else iTemp
  let iTemp := if iTemp > 255 then 255 else iTemp
  toUnsigned 8 (toUnsigned bits iTemp)

/-- The function `convertTemp` of the source, with `int` of `intBits` bits. -/
def convertTemp (temper : Int) : Nat :=
  convertTempAt intBits temper

/-- The clamp of the specification: `clamp(x, lo, hi)`. -/
def clamp {α : Type} [LinearOrder α] (x lo hi : α) : α :=
  max lo (min x hi)

/-- The specification's level encoding, `round(10000 × clamp(level, 0, 1))`,
rounding to the nearest integer. -/
def specRoundLevel (level : ℚ) : Int :=
  round (10000 * clamp level 0 1)

/-- The specification's temperature encoding, `clamp(temperature + 40, 0, 255)`
with the sum over the mathematical integers. -/
def specTemp (temperature : Int) : Int :=
  clamp (temperature + 40) 0 255

/-! ## Channel store: the mutators

The receiver `dut *Emulator` is an `Option Emulator`. A method returns the
state the receiver points to afterwards, or the run-time panic it raised. -/

/-- The failures of the package: a nil-pointer dereference raised by the Go
run time, and the explicit `panic` of `Start` on a nil device. -/
inductive Panic where
  | nilDereference
  | nilDevice
  deriving DecidableEq

/-- Go:
```go
func (dut *Emulator) Enable(sensorNumber uint) {
	if sensorNumber < numSensors { dut.Sensors[sensorNumber].Enabled = true }
}
``` -/
def Enable (dut : Option Emulator) (sensorNumber : Nat) : Except Panic (Option Emulator) :=
  if h : sensorNumber < numSensors then
    match dut with
    | none => Except.error Panic.nilDereference
    | some e => Except.ok (some { e with
        Sensors := Function.update e.Sensors ⟨sensorNumber, h⟩
          { e.Sensors ⟨sensorNumber, h⟩ with Enabled := true } })
  else Except.ok dut

/-- Go:
```go
func (dut *Emulator) Disable(sensorNumber uint) {
	if sensorNumber < numSensors { dut.Sensors[sensorNumber].Enabled = false }
}
``` -/
def Disable (dut : Option Emulator) (sensorNumber : Nat) : Except Panic (Option Emulator) :=
  if h : sensorNumber < numSensors then
    match dut with
    | none => Except.error Panic.nilDereference
    | some e => Except.ok (some { e with
        Sensors := Function.update e.Sensors ⟨sensorNumber, h⟩
          { e.Sensors ⟨sensorNumber, h⟩ with Enabled := false } })
  else Except.ok dut

/-- Go:
```go
func (dut *Emulator) SetLevel(sensorNumber uint, level float64) {
	if dut != nil && sensorNumber < numSensors { dut.Sensors[sensorNumber].Level = level }
}
``` -/
def SetLevel (dut : Option Emulator) (sensorNumber : Nat) (level : F64) :
    Except Panic (Option Emulator) :=
  match dut with
  | none => Except.ok dut
  | some e =>
    if h : sensorNumber < numSensors then
      Except.ok (some { e with
        Sensors := Function.update e.Sensors ⟨sensorNumber, h⟩
          { e.Sensors ⟨sensorNumber, h⟩ with Level := level } })
    else Except.ok dut

/-- Go:
```go
func (dut *Emulator) SetTemperature(sensorNumber uint, temperature int) {
	if dut != nil && sensorNumber < numSensors {
		dut.Sensors[sensorNumber].Temperature = temperature
	}
}
``` -/
def SetTemperature (dut : Option Emulator) (sensorNumber : Nat) (temperature : Int) :
    Except Panic (Option Emulator) :=
  match dut with
  | none => Except.ok dut
  | some e =>
    if h : sensorNumber < numSensors then
      Except.ok (some { e with
        Sensors := Function.update e.Sensors ⟨sensorNumber, h⟩
          { e.Sensors ⟨sensorNumber, h⟩ with Temperature := temperature } })
    else Except.ok dut

/-- Go:
```go
func (dut *Emulator) Set(sensorNumber uint, level float64, temperature int) {
	if dut != nil {
		dut.SetLevel(sensorNumber, level)
		dut.SetTemperature(sensorNumber, temperature)
	}
}
``` -/
def Set (dut : Option Emulator) (sensorNumber : Nat) (level : F64) (temperature : Int) :
    Except Panic (Option Emulator) :=
  match dut with
  | none => Except.ok dut
  | some _ =>
    match SetLevel dut sensorNumber level with
    | Except.error p => Except.error p
    | Except.ok dut1 => SetTemperature dut1 sensorNumber temperature

/-! ## Frames and the sweep -/

/-- The fields of `candev.Message` that the emulator uses: the identifier
(`uint32`), the payload length and the 8 payload bytes. -/
structure Message where
  ID : Nat
  Len : Nat
  Data : Fin 8 → Nat

/-- What the background task does to the outside world: hand a frame to
`dev.Send` (by value, so the frame is a copy of the buffer at that moment) or
wait with `time.Sleep` for a number of nanoseconds. -/
inductive Action where
  | send (msg : Message)
  | sleep (nanoseconds : Nat)

/-- Go: `time.Second`, in nanoseconds. -/
def second : Nat := 1000000000

/-- Go: `binary.LittleEndian.PutUint16(b, v)`, that is `b[0] = byte(v)` and
`b[1] = byte(v >> 8)`, on the 8-byte buffer `msg.Data[0:]`. -/
def PutUint16 (b : Fin 8 → Nat) (v : Nat) : Fin 8 → Nat :=
  Function.update (Function.update b 0 (v % 256)) 1 (v / 256 % 256)

/-- Go: `msg := candev.Message{Len: 8}`, every other field zero. -/
def newMessage : Message :=
  { ID := 0, Len := 8, Data := fun _ => 0 }

/-- Go: `baseDUT + uint32(i+1)`, with `i` the `int` index of the range loop:
the sum `i+1` in `int`, its conversion to `uint32`, the addition in `uint32`. -/
def frameID (i : Fin numSensors) : Nat :=
  (baseDUT + toUnsigned 32 (wrapInt intBits ((i : Int) + 1))) % 2 ^ 32

/-- The body of the inner loop for index `i` and the copied element `sens`,
run on the buffer `msg`; returns the actions performed and the buffer
afterwards. Go:
```go
if sens.Enabled {
	msg.ID = baseDUT + uint32(i+1)
	binary.LittleEndian.PutUint16(msg.Data[0:], convertLevel(sens.Level))
	msg.Data[6] = convertTemp(sens.Temperature)
	dev.Send(msg)
	time.Sleep(time.Second)
}
``` -/
def sensorBody (i : Fin numSensors) (sens : FuelParams) (msg : Message) :
    List Action × Message :=
  if sens.Enabled then
    let msg := { msg with ID := frameID i }
    let msg := { msg with Data := PutUint16 msg.Data (convertLevel sens.Level) }
    let msg := { msg with Data := Function.update msg.Data 6 (convertTemp sens.Temperature) }
    ([Action.send msg, Action.sleep second], msg)
  else ([], msg)

/-- The inner loop over the indices still to visit. -/
def sweepFrom (sensors : Fin numSensors → FuelParams) :
    List (Fin numSensors) → Message → List Action × Message
  | [], msg => ([], msg)
  | i :: rest, msg =>
    let r := sensorBody i (sensors i) msg
    let r2 := sweepFrom sensors rest r.2
    (r.1 ++ r2.1, r2.2)

/-- One sweep, Go: `for i, sens := range dut.Sensors { ... }`. The range
expression is an array, so the loop runs over a copy `sensors` taken when the
sweep begins, with `i` = 0, 1, ..., 7. -/
def sweep (sensors : Fin numSensors → FuelParams) (msg : Message) : List Action × Message :=
  sweepFrom sensors (List.finRange numSensors) msg

/-- The outer loop, Go: `for dut.Enabled { <sweep> }`. The list holds what the
task reads from `*dut` each time it evaluates the loop condition (the caller
may have changed it in between); the result is the trace of the passes that
these reads allow. -/
def loop : List Emulator → Message → List Action
  | [], _ => []
  | dut :: later, msg =>
    if dut.Enabled then
      let r := sweep dut.Sensors msg
      r.1 ++ loop later r.2
    else []

/-- The body of the goroutine from `msg := candev.Message{Len: 8}` on: one
buffer, created once, serves every pass of the loop. -/
def goroutine (observed : List Emulator) : List Action :=
  loop observed newMessage

/-- The frames of a trace, in the order they were submitted. -/
def framesOf : List Action → List Message
  | [] => []
  | Action.send msg :: rest => msg :: framesOf rest
  | Action.sleep _ :: rest => framesOf rest

/-- The waits of a trace, in order. -/
def sleepsOf : List Action → List Nat
  | [] => []
  | Action.send _ :: rest => sleepsOf rest
  | Action.sleep d :: rest => d :: sleepsOf rest

/-- The indices of the enabled channels, ascending. -/
def enabledChannels (sensors : Fin numSensors → FuelParams) : List (Fin numSensors) :=
  (List.finRange numSensors).filter (fun i => (sensors i).Enabled)

/-- The frame of the specification for channel `i` with record `p`:
identifier `B + (i + 1)`, length 8, bytes 0-1 the little-endian encoded level,
byte 6 the encoded temperature, every other byte zero. -/
def specFrame (i : Fin numSensors) (p : FuelParams) : Message :=
  { ID := 0x0CF60664 + ((i : Nat) + 1)
    Len := 8
    Data := ![convertLevel p.Level % 256, convertLevel p.Level / 256, 0, 0, 0, 0,
              convertTemp p.Temperature, 0] }

/-- The actions of the specification for the channels `chans` of one sweep:
for each enabled one, in the order of `chans`, its frame and then a wait of
one second; nothing for a disabled one. -/
def specSweepActions (sensors : Fin numSensors → FuelParams)
    (chans : List (Fin numSensors)) : List Action :=
  (chans.filter (fun i => (sensors i).Enabled)).flatMap
    (fun i => [Action.send (specFrame i (sensors i)), Action.sleep second])

/-- A buffer as the task keeps it between frames: length 8 and zero in the
bytes that the loop body never writes. -/
def Message.Clean (msg : Message) : Prop :=
  msg.Len = 8 ∧ msg.Data 2 = 0 ∧ msg.Data 3 = 0 ∧ msg.Data 4 = 0 ∧ msg.Data 5 = 0 ∧
    msg.Data 7 = 0

/-- A configuration with channels 1 and 6 enabled (level 0.5, 20 °C). -/
def channelsOneAndSix : Fin numSensors → FuelParams :=
  fun i => ⟨decide (i = 1 ∨ i = 6), F64.finite (1 / 2), 20⟩

/-- A configuration with channels 0 and 1 enabled (level 0.5, 20 °C). -/
def channelsZeroAndOne : Fin numSensors → FuelParams :=
  fun i => ⟨decide (i = 0 ∨ i = 1), F64.finite (1 / 2), 20⟩

/-! ## Session life cycle -/

/-- A CAN device handle (`*candev.Device` when not nil). -/
structure Device where
  handle : Nat
  deriving DecidableEq

/-- A goroutine created by `Start`, by its control point: created and not yet
run; at the loop condition; inside a sweep over the copy `snapshot`, about to
visit index `next`; returned. -/
inductive Task where
  | spawned (dev : Device)
  | loopHead (dev : Device) (msg : Message)
  | inSweep (dev : Device) (msg : Message) (snapshot : Fin numSensors → FuelParams) (next : Nat)
  | finished

/-- The initial part of the goroutine and one step of its loops, on the
emulator `dut` it shares with the caller: the emulator afterwards, the next
control point and the actions performed. Go:
```go
go func() {
	dut.Enabled = true
	msg := candev.Message{Len: 8}
	for dut.Enabled {
		for i, sens := range dut.Sensors { ... }
	}
}()
``` -/
def Task.step (dut : Emulator) : Task → Emulator × Task × List Action
  | Task.spawned dev => ({ dut with Enabled := true }, Task.loopHead dev newMessage, [])
  | Task.loopHead dev msg =>
    if dut.Enabled then (dut, Task.inSweep dev msg dut.Sensors 0, [])
    else (dut, Task.finished, [])
  | Task.inSweep dev msg snapshot next =>
    if h : next < numSensors then
      let r := sensorBody ⟨next, h⟩ (snapshot ⟨next, h⟩) msg
      (dut, Task.inSweep dev r.2 snapshot (next + 1), r.1)
    else (dut, Task.loopHead dev msg, [])
  | Task.finished => (dut, Task.finished, [])

/-- A session with its surroundings: the emulator the caller owns, the
goroutines created so far and the frames submitted to the bus so far. -/
structure System where
  dut : Emulator
  tasks : List Task
  sent : List Message

/-- The method `Start`, called on the session of `s` (so the receiver is not
nil) with the device pointer `dev`; returns the panic raised, if any, and the
system afterwards. Go:
```go
func (dut *Emulator) Start(dev *candev.Device) {
	if nil == dev { panic("...") }
	if !dut.Enabled { go func() { ... }() }
}
``` -/
def Start (s : System) (dev : Option Device) : Option Panic × System :=
  match dev with
  | none => (some Panic.nilDevice, s)
  | some d =>
    if !s.dut.Enabled then (none, { s with tasks := s.tasks ++ [Task.spawned d] })
    else (none, s)

/-- Go:
```go
func (dut *Emulator) Stop() {
	dut.Enabled = false
}
``` -/
def Stop (dut : Option Emulator) : Except Panic (Option Emulator) :=
  match dut with
  | none => Except.error Panic.nilDereference
  | some e => Except.ok (some { e with Enabled := false })

/-! ## Interleavings of the caller and the background tasks -/

/-- What can happen next in a system: the caller calls a method on the session
(`Start` with a device that is not nil, `Stop`, or a mutator), or the
goroutine number `k` takes its next step. -/
inductive Event where
  | start (dev : Device)
  | stop
  | enable (sensorNumber : Nat)
  | disable (sensorNumber : Nat)
  | setLevel (sensorNumber : Nat) (level : F64)
  | setTemperature (sensorNumber : Nat) (temperature : Int)
  | set (sensorNumber : Nat) (level : F64) (temperature : Int)
  | task (k : Nat)

/-- The system after a method call on its session returned `r`. -/
def System.afterCall (s : System) (r : Except Panic (Option Emulator)) : System :=
  match r with
  | Except.ok (some e) => { s with dut := e }
  | _ => s

/-- One event. A step of goroutine `k` changes the emulator as `Task.step`
says, moves the goroutine to its next control point and appends the frames it
sent to the bus. -/
def System.step (s : System) : Event → System
  | Event.start dev => (Start s (some dev)).2
  | Event.stop => s.afterCall (Stop (some s.dut))
  | Event.enable n => s.afterCall (Enable (some s.dut) n)
  | Event.disable n => s.afterCall (Disable (some s.dut) n)
  | Event.setLevel n l => s.afterCall (SetLevel (some s.dut) n l)
  | Event.setTemperature n t => s.afterCall (SetTemperature (some s.dut) n t)
  | Event.set n l t => s.afterCall (Set (some s.dut) n l t)
  | Event.task k =>
    match s.tasks.get? k with
    | none => s
    | some t =>
      let r := Task.step s.dut t
      { dut := r.1, tasks := s.tasks.set k r.2.1, sent := s.sent ++ framesOf r.2.2 }

/-- A sequence of events, from left to right. -/
def System.run (s : System) (events : List Event) : System :=
  events.foldl System.step s

/-- A freshly created session (the zero value of `Emulator`): session
disabled, every channel disabled, no goroutine, nothing sent. -/
def fresh : System :=
  { dut := { Enabled := false, Sensors := fun _ => ⟨false, F64.finite 0, 0⟩ }, tasks := [],
    sent := [] }

/-- A goroutine is active until it has returned. -/
def Task.active : Task → Bool
  | Task.finished => false
  | _ => true

/-- The number of active background tasks. -/
def System.activeTasks (s : System) : Nat :=
  (s.tasks.filter Task.active).length

/-- The indices that the range loop has not visited yet when it is about to
visit index `next`. -/
def unvisited (next : Nat) : List (Fin numSensors) :=
  (List.finRange numSensors).drop next

/-- The actions of the rest of the pass in progress: what the inner loop still
does from the control point of the task to the end of its range. -/
def Task.rest : Task → List Action
  | Task.inSweep _ msg snapshot next => (sweepFrom snapshot (unvisited next) msg).1
  | _ => []

/-- A goroutine that has executed its first statements (`dut.Enabled = true`
and the creation of the buffer), so that it is in its loops or has returned. -/
def Task.begun : Task → Bool
  | Task.spawned _ => false
  | _ => true

/-- A number of steps within which a goroutine that has begun returns when it
finds the session flag clear: the indices left in the pass, the exit of the
range loop and the evaluation of the loop condition. -/
def Task.fuel : Task → Nat
  | Task.spawned _ => 0
  | Task.loopHead _ _ => 1
  | Task.inSweep _ _ _ next => (numSensors - next) + 2
  | Task.finished => 0

/-- A call of `Start`. -/
def Event.isStart : Event → Bool
  | Event.start _ => true
  | _ => false

/-- A device used in the examples. -/
def someDevice : Device := ⟨1⟩

/-- The events of a session that enables its eight channels, starts, lets
the goroutine begin, evaluate the loop condition and send the frame of
channel 0, and then calls `Stop`. -/
def stopAfterFirstFrame : List Event :=
  [Event.enable 0, Event.enable 1, Event.enable 2, Event.enable 3, Event.enable 4,
   Event.enable 5, Event.enable 6, Event.enable 7, Event.start someDevice,
   Event.task 0, Event.task 0, Event.task 0, Event.stop]

/-- A configuration with all eight channels enabled (level 0.5, 20 °C). -/
def allChannels : Fin numSensors → FuelParams :=
  fun _ => ⟨true, F64.finite (1 / 2), 20⟩

/-- The scenario of the specification: channel 0 enabled with level 0.25 and
-10 °C, channel 3 enabled with level 1.2 (the `float64` nearest to it) and
220 °C, every other channel disabled (with whatever level and temperature
`others` gives it). -/
def scenario (others : Fin numSensors → F64 × Int) : Fin numSensors → FuelParams :=
  fun i =>
    if i = 0 then ⟨true, F64.finite (1 / 4), -10⟩
    else if i = 3 then ⟨true, F64.ofRat (6 / 5), 220⟩
    else ⟨false, (others i).1, (others i).2⟩

/-! ## Arithmetic lemmas -/

theorem truncate_of_nonneg (x : ℚ) (hx : 0 ≤ x) : truncate x = ⌊x⌋ := by
  unfold truncate
  rw [Rat.floor_def, Int.tdiv_eq_ediv (Rat.num_nonneg.mpr hx) (Int.natCast_nonneg _)]

theorem toUnsigned_of_lt (bits : Nat) (x : Int) (h0 : 0 ≤ x) (h1 : x < 2 ^ bits) :
    (toUnsigned bits x : Int) = x := by
  unfold toUnsigned
  rw [Int.emod_eq_of_lt h0 h1, Int.toNat_of_nonneg h0]

theorem clamp_unit_bounds (level : ℚ) : 0 ≤ clamp level 0 1 ∧ clamp level 0 1 ≤ 1 := by
  unfold clamp
  exact ⟨le_max_left _ _, max_le zero_le_one (min_le_right _ _)⟩

theorem toUnsigned_lt (bits : Nat) (x : Int) : toUnsigned bits x < 2 ^ bits := by
  unfold toUnsigned
  have hpos : (0 : Int) < 2 ^ bits := by positivity
  have h1 := Int.emod_lt_of_pos x hpos
  have h0 := Int.emod_nonneg x hpos.ne'
  zify
  rw [Int.toNat_of_nonneg h0]
  exact h1

/-! ## Lemmas on float64 rounding -/

theorem roundHalfEven_cases (q : ℚ) : roundHalfEven q = ⌊q⌋ ∨ roundHalfEven q = ⌊q⌋ + 1 := by
  unfold roundHalfEven
  split_ifs <;> simp

theorem floor_le_roundHalfEven (q : ℚ) : ⌊q⌋ ≤ roundHalfEven q := by
  rcases roundHalfEven_cases q with h | h <;> omega

theorem roundHalfEven_le_floor_succ (q : ℚ) : roundHalfEven q ≤ ⌊q⌋ + 1 := by
  rcases roundHalfEven_cases q with h | h <;> omega

theorem roundHalfEven_sub_abs (q : ℚ) : |(roundHalfEven q : ℚ) - q| ≤ 1 / 2 := by
  have h1 := Int.self_sub_floor q
  have h2 := Int.fract_nonneg q
  have h3 := Int.fract_lt_one q
  rw [abs_le]
  unfold roundHalfEven
  split_ifs with ha hb hc
  · constructor <;> linarith
  · push_cast; constructor <;> linarith
  · have : Int.fract q = 1 / 2 := le_antisymm (not_lt.mp hb) (not_lt.mp ha)
    constructor <;> linarith
  · have : Int.fract q = 1 / 2 := le_antisymm (not_lt.mp hb) (not_lt.mp ha)
    push_cast; constructor <;> linarith

theorem le_roundHalfEven (q : ℚ) (n : Int) (h : (n : ℚ) ≤ q) : n ≤ roundHalfEven q :=
  le_trans (Int.le_floor.mpr h) (floor_le_roundHalfEven q)

theorem roundHalfEven_le (q : ℚ) (n : Int) (h : q ≤ (n : ℚ)) : roundHalfEven q ≤ n := by
  rcases h.lt_or_eq with hlt | heq
  · have : ⌊q⌋ < n := Int.floor_lt.mpr hlt
    have := roundHalfEven_le_floor_succ q
    omega
  · subst heq
    unfold roundHalfEven
    simp

theorem roundHalfEven_mono {a b : ℚ} (h : a ≤ b) : roundHalfEven a ≤ roundHalfEven b := by
  have hf : ⌊a⌋ ≤ ⌊b⌋ := Int.floor_mono h
  rcases hf.lt_or_eq with hlt | heq
  · have := roundHalfEven_le_floor_succ a
    have := floor_le_roundHalfEven b
    omega
  · have hfr : Int.fract a ≤ Int.fract b := by
      have h1 := Int.self_sub_floor a
      have h2 := Int.self_sub_floor b
      rw [← h1, ← h2, heq]
      linarith
    unfold roundHalfEven
    rw [heq]
    split_ifs <;> first | omega | (exfalso; linarith)

theorem roundHalfEven_eq (q : ℚ) (n : Int) (h : |q - n| < 1 / 2) : roundHalfEven q = n := by
  have h1 := roundHalfEven_sub_abs q
  rw [abs_lt] at h
  rw [abs_le] at h1
  have h2 : ((roundHalfEven q - n : Int) : ℚ) < 1 := by push_cast; linarith
  have h3 : (-1 : ℚ) < ((roundHalfEven q - n : Int) : ℚ) := by push_cast; linarith
  have h4 : roundHalfEven q - n < 1 := by exact_mod_cast h2
  have h5 : -1 < roundHalfEven q - n := by exact_mod_cast h3
  omega

theorem ulp_pos (x : ℚ) : 0 < ulp x := by
  unfold ulp
  positivity

theorem roundF64_sub_abs (x : ℚ) : |roundF64 x - x| ≤ ulp x / 2 := by
  have hu := ulp_pos x
  have h := roundHalfEven_sub_abs (x / ulp x)
  have e : roundF64 x - x = ((roundHalfEven (x / ulp x) : ℚ) - x / ulp x) * ulp x := by
    unfold roundF64
    field_simp
  rw [e, abs_mul, abs_of_pos hu]
  calc |(roundHalfEven (x / ulp x) : ℚ) - x / ulp x| * ulp x ≤ 1 / 2 * ulp x :=
        mul_le_mul_of_nonneg_right h hu.le
    _ = ulp x / 2 := by ring

/-- Rounding does not cross a multiple of the unit in the last place. -/
theorem le_roundF64 (x : ℚ) (n : Int) (h : (n : ℚ) * ulp x ≤ x) : (n : ℚ) * ulp x ≤ roundF64 x := by
  have hu := ulp_pos x
  have h1 : (n : ℚ) ≤ x / ulp x := (le_div_iff₀ hu).mpr h
  have h2 := le_roundHalfEven _ n h1
  unfold roundF64
  exact mul_le_mul_of_nonneg_right (by exact_mod_cast h2) hu.le

theorem roundF64_le (x : ℚ) (n : Int) (h : x ≤ (n : ℚ) * ulp x) : roundF64 x ≤ (n : ℚ) * ulp x := by
  have hu := ulp_pos x
  have h1 : x / ulp x ≤ (n : ℚ) := (div_le_iff₀ hu).mpr h
  have h2 := roundHalfEven_le _ n h1
  unfold roundF64
  exact mul_le_mul_of_nonneg_right (by exact_mod_cast h2) hu.le

theorem binade_le (x : ℚ) (hx : |x| < 2 ^ 14) : binade x ≤ 13 := by
  unfold binade
  apply max_le _ (by norm_num)
  rcases (abs_nonneg x).eq_or_lt with h0 | hpos
  · rw [← h0, Int.log_zero_right]
    norm_num
  · have h : Int.log 2 |x| < 14 := by
      rw [← Int.lt_zpow_iff_log_lt (by norm_num) hpos]
      exact_mod_cast hx
    omega

theorem ulp_le (x : ℚ) (hx : |x| < 2 ^ 14) : ulp x ≤ 1 / 2 ^ 39 := by
  have hb := binade_le x hx
  unfold ulp
  calc (2 : ℚ) ^ (binade x - 52) ≤ 2 ^ (-39 : Int) :=
        zpow_le_zpow_right₀ (by norm_num) (by omega)
    _ = 1 / 2 ^ 39 := by norm_num [zpow_neg]

/-- Below `2 ^ 14` every integer is a multiple of the unit in the last place. -/
theorem int_eq_mul_ulp (x : ℚ) (hx : |x| < 2 ^ 14) (n : Int) :
    ∃ N : Int, (N : ℚ) * ulp x = n := by
  have hb := binade_le x hx
  refine ⟨n * 2 ^ (52 - binade x).toNat, ?_⟩
  have hk : ((52 - binade x).toNat : Int) = 52 - binade x := Int.toNat_of_nonneg (by omega)
  have h2 : (2 : ℚ) ^ (52 - binade x).toNat = 2 ^ (52 - binade x) := by
    rw [← zpow_natCast, hk]
  unfold ulp
  push_cast
  rw [h2, mul_assoc, ← zpow_add₀ (by norm_num : (2 : ℚ) ≠ 0)]
  have : 52 - binade x + (binade x - 52) = 0 := by ring
  rw [this, zpow_zero, mul_one]

theorem int_le_roundF64 (x : ℚ) (hx : |x| < 2 ^ 14) (n : Int) (h : (n : ℚ) ≤ x) :
    (n : ℚ) ≤ roundF64 x := by
  obtain ⟨N, hN⟩ := int_eq_mul_ulp x hx n
  rw [← hN] at h ⊢
  exact le_roundF64 x N h

theorem roundF64_le_int (x : ℚ) (hx : |x| < 2 ^ 14) (n : Int) (h : x ≤ (n : ℚ)) :
    roundF64 x ≤ (n : ℚ) := by
  obtain ⟨N, hN⟩ := int_eq_mul_ulp x hx n
  rw [← hN] at h ⊢
  exact roundF64_le x N h

theorem roundF64_int (n : Int) (hn : |(n : ℚ)| < 2 ^ 14) : roundF64 n = n :=
  le_antisymm (roundF64_le_int _ hn n le_rfl) (int_le_roundF64 _ hn n le_rfl)

theorem binade_mono {x y : ℚ} (hx : 0 < x) (h : x ≤ y) : binade x ≤ binade y := by
  unfold binade
  rw [abs_of_pos hx, abs_of_pos (lt_of_lt_of_le hx h)]
  exact max_le_max (Int.log_mono_right hx h) le_rfl

/-- A power of two at or above the binade of `x`, as a multiple of the unit in the last place. -/
theorem zpow_eq_mul_ulp (x : ℚ) (e : Int) (he : binade x ≤ e) :
    ∃ N : Int, (N : ℚ) * ulp x = 2 ^ e := by
  refine ⟨2 ^ (e - binade x + 52).toNat, ?_⟩
  have hk : ((e - binade x + 52).toNat : Int) = e - binade x + 52 :=
    Int.toNat_of_nonneg (by omega)
  unfold ulp
  push_cast
  rw [← zpow_natCast, hk, ← zpow_add₀ (by norm_num : (2 : ℚ) ≠ 0)]
  congr 1
  ring

theorem lt_zpow_binade_succ (x : ℚ) : |x| < 2 ^ (binade x + 1) := by
  have h1 := Int.lt_zpow_succ_log_self (b := 2) (by norm_num) |x|
  have h2 : Int.log 2 |x| + 1 ≤ binade x + 1 := by
    unfold binade
    have := le_max_left (Int.log 2 |x|) (-1022)
    omega
  calc |x| < ((2 : ℕ) : ℚ) ^ (Int.log 2 |x| + 1) := h1
    _ = (2 : ℚ) ^ (Int.log 2 |x| + 1) := by norm_num
    _ ≤ 2 ^ (binade x + 1) := zpow_le_zpow_right₀ (by norm_num) h2

theorem zpow_binade_le (y : ℚ) (hy : 0 < y) (hb : -1022 < binade y) : 2 ^ binade y ≤ y := by
  have hlog : binade y = Int.log 2 |y| := by
    unfold binade at hb ⊢
    rcases le_total (Int.log 2 |y|) (-1022) with h | h
    · rw [max_eq_right h] at hb
      omega
    · exact max_eq_left h
  have h1 := Int.zpow_log_le_self (b := 2) (r := |y|) (by norm_num) (abs_pos.mpr hy.ne')
  rw [hlog]
  rw [abs_of_pos hy] at h1 ⊢
  exact_mod_cast h1

theorem roundF64_zero : roundF64 0 = 0 := by
  unfold roundF64 roundHalfEven
  simp

theorem roundF64_nonneg (x : ℚ) (hx : 0 ≤ x) : 0 ≤ roundF64 x := by
  have h := le_roundF64 x 0 (by simpa using hx)
  simpa using h

/-- Rounding to the nearest float64 is non-decreasing on the non-negative numbers. -/
theorem roundF64_mono {x y : ℚ} (hx : 0 ≤ x) (h : x ≤ y) : roundF64 x ≤ roundF64 y := by
  rcases hx.eq_or_lt with h0 | hpos
  · rw [← h0, roundF64_zero]
    exact roundF64_nonneg y (le_trans hx h)
  · have hy : 0 < y := lt_of_lt_of_le hpos h
    rcases (binade_mono hpos h).eq_or_lt with heq | hlt
    · have hu : ulp x = ulp y := by unfold ulp; rw [heq]
      unfold roundF64
      rw [hu]
      have hq : x / ulp y ≤ y / ulp y := div_le_div_of_nonneg_right h (ulp_pos y).le
      exact mul_le_mul_of_nonneg_right (by exact_mod_cast roundHalfEven_mono hq) (ulp_pos y).le
    · obtain ⟨N, hN⟩ := zpow_eq_mul_ulp x (binade x + 1) (by omega)
      obtain ⟨M, hM⟩ := zpow_eq_mul_ulp y (binade y) le_rfl
      have h1 : x ≤ (N : ℚ) * ulp x := by
        rw [hN]
        have := lt_zpow_binade_succ x
        rw [abs_of_pos hpos] at this
        exact this.le
      have h2 : (M : ℚ) * ulp y ≤ y := by
        rw [hM]
        exact zpow_binade_le y hy (by
          have : -1022 ≤ binade x := le_max_right _ _
          omega)
      calc roundF64 x ≤ (N : ℚ) * ulp x := roundF64_le x N h1
        _ = 2 ^ (binade x + 1) := hN
        _ ≤ 2 ^ binade y := zpow_le_zpow_right₀ (by norm_num) (by omega)
        _ = (M : ℚ) * ulp y := hM.symm
        _ ≤ roundF64 y := le_roundF64 y M h2

/-- The two `if` statements of `convertLevel` on a finite level compute
`clamp level 0 1`. -/
theorem convertLevel_clamps (q : ℚ) :
    (if F64.lt (F64.finite 1)
        (if F64.lt (F64.finite q) (F64.finite 0) then F64.finite 0 else F64.finite q)
      then F64.finite 1
      else (if F64.lt (F64.finite q) (F64.finite 0) then F64.finite 0 else F64.finite q))
      = F64.finite (clamp q 0 1) := by
  unfold clamp
  by_cases h0 : q < 0
  · simp [F64.lt, h0, min_eq_left (le_trans h0.le zero_le_one), max_eq_left h0.le]
  · by_cases h1 : 1 < q
    · simp [F64.lt, h0, h1, min_eq_right h1.le]
    · simp [F64.lt, h0, h1, min_eq_left (not_lt.mp h1), max_eq_right (not_lt.mp h0)]

theorem scaled_bounds (q : ℚ) :
    0 ≤ 10000 * clamp q 0 1 ∧ 10000 * clamp q 0 1 ≤ 10000 ∧ |10000 * clamp q 0 1| < 2 ^ 14 := by
  obtain ⟨hlo, hhi⟩ := clamp_unit_bounds q
  have h0 : (0 : ℚ) ≤ 10000 * clamp q 0 1 := by positivity
  refine ⟨h0, by linarith, ?_⟩
  rw [abs_of_nonneg h0]
  norm_num
  linarith

theorem product_bounds (q : ℚ) :
    0 ≤ roundF64 (10000 * clamp q 0 1) ∧ roundF64 (10000 * clamp q 0 1) ≤ 10000 := by
  obtain ⟨h0, h1, h2⟩ := scaled_bounds q
  refine ⟨roundF64_nonneg _ h0, ?_⟩
  have := roundF64_le_int _ h2 10000 (by exact_mod_cast h1)
  exact_mod_cast this

/-- On a finite level `convertLevel` is the integer part of the float64
product of 10000 and the clamped level. -/
theorem convertLevel_finite (q : ℚ) :
    (convertLevel (F64.finite q) : Int) = ⌊roundF64 (10000 * clamp q 0 1)⌋ := by
  obtain ⟨hp0, hp1⟩ := product_bounds q
  have hf0 : 0 ≤ ⌊roundF64 (10000 * clamp q 0 1)⌋ := Int.floor_nonneg.mpr hp0
  have hf1 : ⌊roundF64 (10000 * clamp q 0 1)⌋ < 2 ^ 16 := by
    rw [Int.floor_lt]
    push_cast
    linarith
  have hfin : |roundF64 (10000 * clamp q 0 1)| < 2 ^ 1024 := by
    rw [abs_of_nonneg hp0]
    calc roundF64 (10000 * clamp q 0 1) ≤ 10000 := hp1
      _ < 2 ^ 1024 := by norm_num
  show ((F64.toUint16 (F64.mul (F64.finite 10000)
    (if F64.lt (F64.finite 1)
        (if F64.lt (F64.finite q) (F64.finite 0) then F64.finite 0 else F64.finite q)
      then F64.finite 1
      else (if F64.lt (F64.finite q) (F64.finite 0) then F64.finite 0 else F64.finite q))) : Nat)
      : Int) = _
  rw [convertLevel_clamps]
  show ((F64.toUint16 (F64.ofRat (10000 * clamp q 0 1)) : Nat) : Int) = _
  unfold F64.ofRat
  rw [if_pos hfin]
  show ((if 0 ≤ truncate (roundF64 (10000 * clamp q 0 1)) ∧
      truncate (roundF64 (10000 * clamp q 0 1)) < 2 ^ 16
    then (truncate (roundF64 (10000 * clamp q 0 1))).toNat else outOfRangeUint16 : Nat) : Int) = _
  rw [truncate_of_nonneg _ hp0, if_pos ⟨hf0, hf1⟩, Int.toNat_of_nonneg hf0]

theorem toUint16_lt (p : F64) : p.toUint16 < 65536 := by
  cases p with
  | finite x =>
    show (if 0 ≤ truncate x ∧ truncate x < 2 ^ 16 then (truncate x).toNat
      else outOfRangeUint16) < 65536
    split_ifs with h
    · have := h.2
      omega
    · decide
  | posInf => decide
  | negInf => decide
  | nan => decide

theorem convertLevel_lt (level : F64) : convertLevel level < 65536 :=
  toUint16_lt _

theorem roundF64_error (x : ℚ) (hx : |x| < 2 ^ 14) : |roundF64 x - x| ≤ 1 / 2 ^ 40 := by
  have h1 := roundF64_sub_abs x
  have h2 := ulp_le x hx
  calc |roundF64 x - x| ≤ ulp x / 2 := h1
    _ ≤ (1 / 2 ^ 39) / 2 := by linarith
    _ = 1 / 2 ^ 40 := by norm_num

theorem binade_eq (x : ℚ) (e : Int) (he : -1022 ≤ e) (h1 : (2 : ℚ) ^ e ≤ |x|)
    (h2 : |x| < 2 ^ (e + 1)) : binade x = e := by
  have hpos : 0 < |x| := lt_of_lt_of_le (by positivity) h1
  have ha : e ≤ Int.log 2 |x| := by
    rw [← Int.zpow_le_iff_le_log (by norm_num) hpos]
    exact_mod_cast h1
  have hb : Int.log 2 |x| < e + 1 := by
    rw [← Int.lt_zpow_iff_log_lt (by norm_num) hpos]
    exact_mod_cast h2
  unfold binade
  rw [max_eq_left (by omega)]
  omega

theorem roundF64_eq_of (x : ℚ) (e N : Int) (hb : binade x = e)
    (h : |x / 2 ^ (e - 52) - N| < 1 / 2) : roundF64 x = N * 2 ^ (e - 52) := by
  unfold roundF64 ulp
  rw [hb, roundHalfEven_eq _ N h]

/-- If the exact scaled level is at least the integer `n` and below `n + 1`
by more than the rounding error, `convertLevel` returns `n`. -/
theorem convertLevel_of_bounds (q : ℚ) (n : Int) (h1 : (n : ℚ) ≤ 10000 * clamp q 0 1)
    (h2 : 10000 * clamp q 0 1 + 1 / 2 ^ 40 < n + 1) : (convertLevel (F64.finite q) : Int) = n := by
  obtain ⟨_, _, hs⟩ := scaled_bounds q
  have ha := int_le_roundF64 _ hs n h1
  have hb := roundF64_error _ hs
  rw [abs_le] at hb
  rw [convertLevel_finite, Int.floor_eq_iff]
  constructor
  · exact ha
  · linarith [hb.2]

theorem convertLevel_posInf : convertLevel F64.posInf = convertLevel (F64.finite 1) := rfl

theorem convertLevel_negInf : convertLevel F64.negInf = convertLevel (F64.finite 0) := rfl

theorem roundF64_6e5 : roundF64 (6 / 100000) = 8854437155380585 / 2 ^ 67 := by
  have hb : binade (6 / 100000) = -15 := by
    apply binade_eq _ _ (by norm_num)
    · rw [abs_of_pos (by norm_num)]; norm_num
    · rw [abs_of_pos (by norm_num)]; norm_num
  rw [roundF64_eq_of (6 / 100000) (-15) 8854437155380585 hb]
  · norm_num
  · rw [abs_lt]
    constructor <;> norm_num

theorem ofRat_6e5 : F64.ofRat (6 / 100000) = F64.finite (8854437155380585 / 2 ^ 67) := by
  unfold F64.ofRat
  rw [roundF64_6e5, if_pos]
  rw [abs_of_pos (by norm_num)]
  norm_num

theorem roundF64_7e4 : roundF64 (7 / 10000) = 6456360425798343 / 2 ^ 63 := by
  have hb : binade (7 / 10000) = -11 := by
    apply binade_eq _ _ (by norm_num)
    · rw [abs_of_pos (by norm_num)]; norm_num
    · rw [abs_of_pos (by norm_num)]; norm_num
  rw [roundF64_eq_of (7 / 10000) (-11) 6456360425798343 hb]
  · norm_num
  · rw [abs_lt]
    constructor <;> norm_num

theorem product_7e4 : roundF64 (10000 * (6456360425798343 / 2 ^ 63)) = 7 := by
  have hb : binade (10000 * (6456360425798343 / 2 ^ 63)) = 2 := by
    apply binade_eq _ _ (by norm_num)
    · rw [abs_of_pos (by norm_num)]; norm_num
    · rw [abs_of_pos (by norm_num)]; norm_num
  rw [roundF64_eq_of _ 2 (7 * 2 ^ 50) hb]
  · norm_num
  · rw [abs_lt]
    constructor <;> norm_num

/-! ## Lemmas on the sweep -/

/-- The identifier computed by the loop body, without wrap-around. -/
theorem frameID_eq (i : Fin numSensors) : frameID i = 0x0CF60664 + ((i : Nat) + 1) := by
  fin_cases i <;> decide

theorem specFrame_clean (i : Fin numSensors) (p : FuelParams) : (specFrame i p).Clean :=
  ⟨rfl, rfl, rfl, rfl, rfl, rfl⟩

theorem newMessage_clean : newMessage.Clean :=
  ⟨rfl, rfl, rfl, rfl, rfl, rfl⟩

/-- On a clean buffer the three assignments of the loop body produce the
frame of the specification. -/
theorem sensorBody_enabled (i : Fin numSensors) (sens : FuelParams) (msg : Message)
    (hc : msg.Clean) (he : sens.Enabled = true) :
    sensorBody i sens msg
      = ([Action.send (specFrame i sens), Action.sleep second], specFrame i sens) := by
  obtain ⟨hlen, h2, h3, h4, h5, h7⟩ := hc
  have hdiv : convertLevel sens.Level / 256 % 256 = convertLevel sens.Level / 256 := by
    have := convertLevel_lt sens.Level
    omega
  have hdata : Function.update (PutUint16 msg.Data (convertLevel sens.Level)) 6
      (convertTemp sens.Temperature)
      = ![convertLevel sens.Level % 256, convertLevel sens.Level / 256, 0, 0, 0, 0,
          convertTemp sens.Temperature, 0] := by
    funext j
    fin_cases j <;> simp [PutUint16, Function.update, h2, h3, h4, h5, h7, hdiv] <;> rfl
  unfold sensorBody specFrame
  simp only [he, if_true]
  rw [frameID_eq, hlen, hdata]

theorem sensorBody_disabled (i : Fin numSensors) (sens : FuelParams) (msg : Message)
    (he : sens.Enabled = false) : sensorBody i sens msg = ([], msg) := by
  unfold sensorBody
  simp [he]

theorem sweepFrom_clean (sensors : Fin numSensors → FuelParams) (chans : List (Fin numSensors))
    (msg : Message) (hc : msg.Clean) :
    (sweepFrom sensors chans msg).1 = specSweepActions sensors chans ∧
    (sweepFrom sensors chans msg).2.Clean := by
  induction chans generalizing msg with
  | nil => exact ⟨rfl, hc⟩
  | cons i rest ih =>
    unfold specSweepActions
    by_cases he : (sensors i).Enabled = true
    · have hb := sensorBody_enabled i (sensors i) msg hc he
      obtain ⟨h1, h2⟩ := ih (specFrame i (sensors i)) (specFrame_clean i (sensors i))
      rw [List.filter_cons_of_pos (by simpa using he), List.flatMap_cons]
      simp only [sweepFrom, hb]
      exact ⟨by rw [h1]; rfl, h2⟩
    · have he2 : (sensors i).Enabled = false := by simpa using he
      have hb := sensorBody_disabled i (sensors i) msg he2
      obtain ⟨h1, h2⟩ := ih msg hc
      rw [List.filter_cons_of_neg (by simpa using he)]
      simp only [sweepFrom, hb]
      exact ⟨by rw [h1]; rfl, h2⟩

theorem sweep_clean (sensors : Fin numSensors → FuelParams) (msg : Message) (hc : msg.Clean) :
    (sweep sensors msg).1 = specSweepActions sensors (List.finRange numSensors) ∧
    (sweep sensors msg).2.Clean :=
  sweepFrom_clean sensors _ msg hc

theorem framesOf_append (a b : List Action) : framesOf (a ++ b) = framesOf a ++ framesOf b := by
  induction a with
  | nil => rfl
  | cons x rest ih => cases x <;> simp [framesOf, ih]

theorem sleepsOf_append (a b : List Action) : sleepsOf (a ++ b) = sleepsOf a ++ sleepsOf b := by
  induction a with
  | nil => rfl
  | cons x rest ih => cases x <;> simp [sleepsOf, ih]

theorem framesOf_pairs (sensors : Fin numSensors → FuelParams) (l : List (Fin numSensors)) :
    framesOf (l.flatMap
      (fun i => [Action.send (specFrame i (sensors i)), Action.sleep second]))
      = l.map (fun i => specFrame i (sensors i)) := by
  induction l with
  | nil => rfl
  | cons i rest ih =>
    rw [List.flatMap_cons, framesOf_append, ih]
    rfl

theorem sleepsOf_pairs (sensors : Fin numSensors → FuelParams) (l : List (Fin numSensors)) :
    sleepsOf (l.flatMap
      (fun i => [Action.send (specFrame i (sensors i)), Action.sleep second]))
      = List.replicate l.length second := by
  induction l with
  | nil => rfl
  | cons i rest ih =>
    rw [List.flatMap_cons, sleepsOf_append, ih]
    rfl

theorem loop_clean (observed : List Emulator) (msg : Message) (hc : msg.Clean) :
    loop observed msg = (observed.takeWhile (fun dut => dut.Enabled)).flatMap
      (fun dut => specSweepActions dut.Sensors (List.finRange numSensors)) := by
  induction observed generalizing msg with
  | nil => rfl
  | cons dut later ih =>
    obtain ⟨h1, h2⟩ := sweep_clean dut.Sensors msg hc
    by_cases he : dut.Enabled = true
    · rw [List.takeWhile_cons_of_pos he, List.flatMap_cons]
      simp only [loop, he, if_true]
      rw [h1, ih _ h2]
    · rw [List.takeWhile_cons_of_neg he]
      simp [loop, he]

/-! ## Encoders: level -/

/-- C1 (as amended): for every level that is a number, the 16-bit value
produced by `convertLevel` is the `float64` product of 10000 and
`clamp(level, 0, 1)` with its fraction discarded, not the scaled level
rounded to the nearest integer. It is the floor or the ceiling of the exact
scaled level, and it is the rounded value of the claim or one less. The
infinities encode as 10000 and 0. -/
theorem convertLevel_truncates (level : ℚ) :
    (convertLevel (F64.finite level) : Int) = ⌊roundF64 (10000 * clamp level 0 1)⌋ ∧
    ⌊10000 * clamp level 0 1⌋ ≤ (convertLevel (F64.finite level) : Int) ∧
    (convertLevel (F64.finite level) : Int) ≤ ⌈10000 * clamp level 0 1⌉ ∧
    (convertLevel (F64.finite level) : Int) ≤ specRoundLevel level ∧
    specRoundLevel level ≤ (convertLevel (F64.finite level) : Int) + 1 ∧
    convertLevel F64.posInf = 10000 ∧ convertLevel F64.negInf = 0 := by
  obtain ⟨hs0, hs1, hs⟩ := scaled_bounds level
  have hfl := convertLevel_finite level
  have herr := roundF64_error _ hs
  rw [abs_le] at herr
  have hlow : ⌊10000 * clamp level 0 1⌋ ≤ ⌊roundF64 (10000 * clamp level 0 1)⌋ :=
    Int.le_floor.mpr (int_le_roundF64 _ hs _ (Int.floor_le _))
  have hone : (convertLevel (F64.finite 1) : Int) = 10000 := by
    apply convertLevel_of_bounds <;> norm_num [clamp]
  have hzero : (convertLevel (F64.finite 0) : Int) = 0 := by
    apply convertLevel_of_bounds <;> norm_num [clamp]
  refine ⟨hfl, by rw [hfl]; exact hlow, ?_, ?_, ?_, ?_, ?_⟩
  · rw [hfl]
    have h1 := roundF64_le_int _ hs ⌈10000 * clamp level 0 1⌉ (Int.le_ceil _)
    have h2 := Int.floor_le (roundF64 (10000 * clamp level 0 1))
    exact_mod_cast le_trans h2 h1
  · rw [hfl]
    unfold specRoundLevel
    rw [round_eq, Int.le_floor]
    have h2 := Int.floor_le (roundF64 (10000 * clamp level 0 1))
    have h3 : (1 : ℚ) / 2 ^ 40 ≤ 1 / 2 := by norm_num
    linarith [herr.2]
  · rw [hfl]
    unfold specRoundLevel
    rw [round_eq]
    have h1 : ⌊10000 * clamp level 0 1 + 1 / 2⌋ ≤ ⌊10000 * clamp level 0 1 + 1⌋ :=
      Int.floor_mono (by linarith)
    rw [Int.floor_add_one] at h1
    omega
  · rw [convertLevel_posInf]
    exact_mod_cast hone
  · rw [convertLevel_negInf]
    exact_mod_cast hzero

/-- C1 (counterexample): the level 0.00006, that is the `float64`
`8854437155380585 / 2 ^ 67`, scales to about 0.6; `convertLevel` encodes it as
0 while rounding the scaled level to the nearest integer gives 1. -/
theorem convertLevel_not_rounded :
    F64.ofRat (6 / 100000) = F64.finite (8854437155380585 / 2 ^ 67) ∧
    convertLevel (F64.ofRat (6 / 100000)) = 0 ∧
    specRoundLevel (8854437155380585 / 2 ^ 67) = 1 ∧
    specRoundLevel (6 / 100000) = 1 := by
  have hc : clamp (8854437155380585 / 2 ^ 67 : ℚ) 0 1 = 8854437155380585 / 2 ^ 67 := by
    unfold clamp
    rw [min_eq_left (by norm_num), max_eq_right (by norm_num)]
  have hd : clamp (6 / 100000 : ℚ) 0 1 = 6 / 100000 := by
    unfold clamp
    rw [min_eq_left (by norm_num), max_eq_right (by norm_num)]
  have h : (convertLevel (F64.finite (8854437155380585 / 2 ^ 67)) : Int) = 0 := by
    apply convertLevel_of_bounds
    · rw [hc]; norm_num
    · rw [hc]; norm_num
  refine ⟨ofRat_6e5, ?_, ?_, ?_⟩
  · rw [ofRat_6e5]
    exact_mod_cast h
  · unfold specRoundLevel
    rw [hc, round_eq, Int.floor_eq_iff]
    norm_num
  · unfold specRoundLevel
    rw [hd, round_eq, Int.floor_eq_iff]
    norm_num

/-! ## Encoders: temperature -/

/-- C2 (evaluation at the failing input): at the largest 64-bit `int` the sum
`temper + 40` wraps to a negative value, so `convertTemp` returns 0, whereas
`clamp(temperature + 40, 0, 255)` over the integers is 255. The same happens
at the largest 32-bit `int` when `int` has 32 bits. -/
theorem convertTemp_wraps_at_maxInt :
    convertTemp 9223372036854775807 = 0 ∧ specTemp 9223372036854775807 = 255 ∧
    convertTempAt 32 2147483647 = 0 ∧ specTemp 2147483647 = 255 := by
  refine ⟨by decide, by decide, by decide, by decide⟩

/-! ## Frames of the background task -/

/-- C3: the frames submitted by the background task, over any number of
passes and whatever the task reads from the session at each pass, are exactly
the specification frames of the enabled channels of each pass, in order; such
a frame has length 8, bytes 2, 3, 4, 5 and 7 zero, bytes 0-1 the little-endian
encoding of `convertLevel` of the channel's level (byte 0 the value mod 256,
byte 1 the value div 256) and byte 6 `convertTemp` of its temperature. Being
a function of the channel and its record alone, a frame carries nothing over
from an earlier one. -/
theorem goroutine_frames (observed : List Emulator) :
    framesOf (goroutine observed)
      = (observed.takeWhile (fun dut => dut.Enabled)).flatMap
          (fun dut => (enabledChannels dut.Sensors).map (fun i => specFrame i (dut.Sensors i))) ∧
    ∀ (i : Fin numSensors) (p : FuelParams),
      (specFrame i p).Len = 8 ∧
      (specFrame i p).Data 0 = convertLevel p.Level % 256 ∧
      (specFrame i p).Data 1 = convertLevel p.Level / 256 ∧
      (specFrame i p).Data 2 = 0 ∧ (specFrame i p).Data 3 = 0 ∧
      (specFrame i p).Data 4 = 0 ∧ (specFrame i p).Data 5 = 0 ∧
      (specFrame i p).Data 6 = convertTemp p.Temperature ∧
      (specFrame i p).Data 7 = 0 ∧
      (specFrame i p).Data 0 + 256 * (specFrame i p).Data 1 = convertLevel p.Level := by
  constructor
  · unfold goroutine
    rw [loop_clean observed newMessage newMessage_clean]
    generalize observed.takeWhile (fun dut => dut.Enabled) = passes
    induction passes with
    | nil => rfl
    | cons dut rest ih =>
      rw [List.flatMap_cons, List.flatMap_cons, framesOf_append, ih]
      unfold specSweepActions enabledChannels
      rw [framesOf_pairs]
  · intro i p
    refine ⟨rfl, rfl, rfl, rfl, rfl, rfl, rfl, rfl, rfl, ?_⟩
    show convertLevel p.Level % 256 + 256 * (convertLevel p.Level / 256) = convertLevel p.Level
    omega

/-- C4: for every channel index `i` in 0..7 the frame emitted for channel `i`
has identifier `0x0CF60664 + i + 1`; the 32-bit sum does not wrap, the
identifiers lie in `0x0CF60665..0x0CF6066C` and are pairwise distinct. -/
theorem frame_identifier (i : Fin numSensors) :
    (∀ (level : F64) (temperature : Int) (msg : Message),
      (framesOf (sensorBody i ⟨true, level, temperature⟩ msg).1).map Message.ID
        = [0x0CF60664 + (i : Nat) + 1]) ∧
    frameID i = baseDUT + (i : Nat) + 1 ∧
    baseDUT = 0x0CF60664 ∧
    baseDUT + (i : Nat) + 1 < 2 ^ 32 ∧
    0x0CF60665 ≤ frameID i ∧ frameID i ≤ 0x0CF6066C ∧
    Function.Injective frameID := by
  have hid : ∀ j : Fin numSensors, frameID j = 0x0CF60664 + ((j : Nat) + 1) := frameID_eq
  have hi : (i : Nat) < 8 := i.isLt
  refine ⟨?_, ?_, rfl, ?_, ?_, ?_, ?_⟩
  · intro level temperature msg
    simp only [sensorBody, if_true, framesOf, List.map, hid]
    rfl
  · rw [hid]; rfl
  · unfold baseDUT; omega
  · rw [hid]; omega
  · rw [hid]; omega
  · intro a b hab
    rw [hid, hid] at hab
    exact Fin.ext (by omega)

/-- C5: on a buffer as the task keeps it, one sweep performs exactly, for each
enabled channel in ascending index order, the submission of that channel's
frame followed by a wait of one second, and nothing for a disabled channel;
so it submits as many frames and makes as many waits as there are enabled
channels, and with every channel disabled it performs no action at all. -/
theorem sweep_actions (sensors : Fin numSensors → FuelParams) (msg : Message)
    (hc : msg.Clean) :
    (sweep sensors msg).1
      = (enabledChannels sensors).flatMap
          (fun i => [Action.send (specFrame i (sensors i)), Action.sleep second]) ∧
    (framesOf (sweep sensors msg).1).length = (enabledChannels sensors).length ∧
    sleepsOf (sweep sensors msg).1 = List.replicate (enabledChannels sensors).length second ∧
    ((∀ i, (sensors i).Enabled = false) → (sweep sensors msg).1 = []) ∧
    (enabledChannels sensors).Sorted (fun a b => a < b) := by
  have h := (sweep_clean sensors msg hc).1
  have h2 : (sweep sensors msg).1 = (enabledChannels sensors).flatMap
      (fun i => [Action.send (specFrame i (sensors i)), Action.sleep second]) := h
  refine ⟨h2, ?_, ?_, ?_, ?_⟩
  · rw [h2, framesOf_pairs, List.length_map]
  · rw [h2, sleepsOf_pairs]
  · intro hnone
    have hnil : enabledChannels sensors = [] := by
      unfold enabledChannels
      rw [List.filter_eq_nil_iff]
      intro i _
      simp [hnone i]
    rw [h2, hnil]
    rfl
  · unfold enabledChannels
    exact List.Pairwise.sublist (List.filter_sublist _) (List.pairwise_lt_finRange numSensors)

/-- C5 (witness): the sweep of the fresh buffer with channels 1 and 6 enabled
is frame 1, wait, frame 6, wait. -/
theorem sweep_actions_witness :
    newMessage.Clean ∧
    (sweep channelsOneAndSix newMessage).1
      = [Action.send (specFrame 1 (channelsOneAndSix 1)), Action.sleep second,
         Action.send (specFrame 6 (channelsOneAndSix 6)), Action.sleep second] := by
  have h16 : enabledChannels channelsOneAndSix = [1, 6] := by decide
  refine ⟨newMessage_clean, ?_⟩
  rw [(sweep_actions channelsOneAndSix newMessage newMessage_clean).1, h16]
  rfl

/-- C6 (evaluation at the failing input): with channels 0 and 1 enabled, a
sweep submits the frame of channel 0, waits one second, submits the frame of
channel 1 and waits one second again: the two frames are one second apart and
each channel is served once per two seconds, not both together once per
second. -/
theorem sweep_waits_between_frames :
    (sweep channelsZeroAndOne newMessage).1
      = [Action.send (specFrame 0 (channelsZeroAndOne 0)), Action.sleep second,
         Action.send (specFrame 1 (channelsZeroAndOne 1)), Action.sleep second] ∧
    sleepsOf (sweep channelsZeroAndOne newMessage).1 = [1000000000, 1000000000] := by
  have h01 : (List.finRange numSensors).filter (fun i => (channelsZeroAndOne i).Enabled)
      = [0, 1] := by decide
  have h : (sweep channelsZeroAndOne newMessage).1
      = [Action.send (specFrame 0 (channelsZeroAndOne 0)), Action.sleep second,
         Action.send (specFrame 1 (channelsZeroAndOne 1)), Action.sleep second] := by
    rw [(sweep_clean channelsZeroAndOne newMessage newMessage_clean).1]
    unfold specSweepActions
    rw [h01]
    rfl
  exact ⟨h, by rw [h]; rfl⟩

/-! ## Channel store -/

/-- C7: for every receiver (any emulator state, or nil) and every index of 8
or more, each of the five mutators returns normally and leaves the emulator
exactly as it was. -/
theorem mutators_out_of_range (dut : Option Emulator) (sensorNumber : Nat) (level : F64)
    (temperature : Int) (h : numSensors ≤ sensorNumber) :
    Enable dut sensorNumber = Except.ok dut ∧
    Disable dut sensorNumber = Except.ok dut ∧
    SetLevel dut sensorNumber level = Except.ok dut ∧
    SetTemperature dut sensorNumber temperature = Except.ok dut ∧
    Set dut sensorNumber level temperature = Except.ok dut := by
  have hn : ¬ sensorNumber < numSensors := not_lt.mpr h
  have hl : SetLevel dut sensorNumber level = Except.ok dut := by
    cases dut <;> simp [SetLevel, hn]
  have ht : SetTemperature dut sensorNumber temperature = Except.ok dut := by
    cases dut <;> simp [SetTemperature, hn]
  refine ⟨by simp [Enable, hn], by simp [Disable, hn], hl, ht, ?_⟩
  cases dut with
  | none => rfl
  | some e =>
    unfold Set
    simp only [hl, ht]

/-- C7 (witness): index 8 on an emulator with every channel enabled. -/
theorem mutators_out_of_range_witness :
    numSensors ≤ 8 ∧
    Enable (some ⟨true, fun _ => ⟨true, F64.finite (1 / 2), 20⟩⟩) 8
      = Except.ok (some ⟨true, fun _ => ⟨true, F64.finite (1 / 2), 20⟩⟩) ∧
    Disable (some ⟨true, fun _ => ⟨true, F64.finite (1 / 2), 20⟩⟩) 8
      = Except.ok (some ⟨true, fun _ => ⟨true, F64.finite (1 / 2), 20⟩⟩) ∧
    SetLevel (some ⟨true, fun _ => ⟨true, F64.finite (1 / 2), 20⟩⟩) 8 (F64.finite (3 / 4))
      = Except.ok (some ⟨true, fun _ => ⟨true, F64.finite (1 / 2), 20⟩⟩) ∧
    SetTemperature (some ⟨true, fun _ => ⟨true, F64.finite (1 / 2), 20⟩⟩) 8 (-5)
      = Except.ok (some ⟨true, fun _ => ⟨true, F64.finite (1 / 2), 20⟩⟩) ∧
    Set (some ⟨true, fun _ => ⟨true, F64.finite (1 / 2), 20⟩⟩) 8 (F64.finite (3 / 4)) (-5)
      = Except.ok (some ⟨true, fun _ => ⟨true, F64.finite (1 / 2), 20⟩⟩) :=
  ⟨by decide, mutators_out_of_range _ 8 (F64.finite (3 / 4)) (-5) (by decide)⟩

/-- C8: for every emulator state, every index `i` below 8 and every argument,
each of `Enable`, `Disable`, `SetLevel` and `SetTemperature` returns normally
with the original state in which one field of channel `i` holds the new value
as given (no clamping); the other two fields of channel `i`, the other seven
channels and the session flag are as before. -/
theorem mutators_in_range (e : Emulator) (i : Fin numSensors) (level : F64) (temperature : Int) :
    Enable (some e) i = Except.ok (some
      { Enabled := e.Enabled
        Sensors := Function.update e.Sensors i
          { Enabled := true, Level := (e.Sensors i).Level,
            Temperature := (e.Sensors i).Temperature } }) ∧
    Disable (some e) i = Except.ok (some
      { Enabled := e.Enabled
        Sensors := Function.update e.Sensors i
          { Enabled := false, Level := (e.Sensors i).Level,
            Temperature := (e.Sensors i).Temperature } }) ∧
    SetLevel (some e) i level = Except.ok (some
      { Enabled := e.Enabled
        Sensors := Function.update e.Sensors i
          { Enabled := (e.Sensors i).Enabled, Level := level,
            Temperature := (e.Sensors i).Temperature } }) ∧
    SetTemperature (some e) i temperature = Except.ok (some
      { Enabled := e.Enabled
        Sensors := Function.update e.Sensors i
          { Enabled := (e.Sensors i).Enabled, Level := (e.Sensors i).Level,
            Temperature := temperature } }) := by
  have hi : (i : Nat) < numSensors := i.isLt
  refine ⟨?_, ?_, ?_, ?_⟩
  · simp [Enable, hi]
  · simp [Disable, hi]
  · simp [SetLevel, hi]
  · simp [SetTemperature, hi]

/-- C9: for every receiver, index, level and temperature, `Set` produces what
`SetLevel` followed by `SetTemperature` produces, and also what the two setters
produce in the opposite order; on an emulator it returns normally and leaves
the session flag and every channel's enabled flag as they were. -/
theorem set_is_composition (dut : Option Emulator) (e : Emulator) (sensorNumber : Nat)
    (level : F64) (temperature : Int) :
    Set dut sensorNumber level temperature
      = (SetLevel dut sensorNumber level).bind
          (fun d => SetTemperature d sensorNumber temperature) ∧
    Set dut sensorNumber level temperature
      = (SetTemperature dut sensorNumber temperature).bind
          (fun d => SetLevel d sensorNumber level) ∧
    ∃ e2 : Emulator, Set (some e) sensorNumber level temperature = Except.ok (some e2) ∧
      e2.Enabled = e.Enabled ∧
      ∀ j : Fin numSensors, (e2.Sensors j).Enabled = (e.Sensors j).Enabled := by
  refine ⟨?_, ?_, ?_⟩
  · cases dut with
    | none => rfl
    | some d =>
      by_cases h : sensorNumber < numSensors <;>
        simp [Set, SetLevel, SetTemperature, Except.bind, h]
  · cases dut with
    | none => rfl
    | some d =>
      by_cases h : sensorNumber < numSensors <;>
        simp [Set, SetLevel, SetTemperature, Except.bind, h]
  · by_cases h : sensorNumber < numSensors
    · refine ⟨{ Enabled := e.Enabled
                Sensors := Function.update e.Sensors ⟨sensorNumber, h⟩
                  { Enabled := (e.Sensors ⟨sensorNumber, h⟩).Enabled, Level := level,
                    Temperature := temperature } },
        by simp [Set, SetLevel, SetTemperature, h], rfl, ?_⟩
      intro j
      by_cases hj : j = ⟨sensorNumber, h⟩
      · subst hj
        simp
      · simp [Function.update, hj]
    · exact ⟨e, by simp [Set, SetLevel, SetTemperature, h], rfl, fun _ => rfl⟩

/-! ## Start -/

/-- C10: `Start` panics exactly when the device pointer is nil, whatever the
state of the session (enabled or not); when it panics the system is left as it
was: same session flag, same channel records, no goroutine created and no
frame submitted. -/
theorem start_panics_iff_nil (s : System) (dev : Option Device) :
    ((Start s dev).1 ≠ none ↔ dev = none) ∧
    ((Start s dev).1 = some Panic.nilDevice ↔ dev = none) ∧
    Start s none = (some Panic.nilDevice, s) ∧
    (Start s none).2.dut.Enabled = s.dut.Enabled ∧
    (Start s none).2.dut.Sensors = s.dut.Sensors ∧
    (Start s none).2.tasks = s.tasks ∧
    (Start s none).2.sent = s.sent := by
  refine ⟨?_, ?_, rfl, rfl, rfl, rfl, rfl⟩
  · cases dev with
    | none => simp [Start]
    | some d => by_cases h : s.dut.Enabled = true <;> simp [Start, h]
  · cases dev with
    | none => simp [Start]
    | some d => by_cases h : s.dut.Enabled = true <;> simp [Start, h]

/-! ## Encoders: boundary values and ranges -/

theorem clamp_unit_mono {a b : ℚ} (h : a ≤ b) : clamp a 0 1 ≤ clamp b 0 1 := by
  unfold clamp
  exact max_le_max le_rfl (min_le_min h le_rfl)

/-- Without overflow of `temper + 40`, `convertTemp` is the clamp of the
specification. -/
theorem convertTemp_eq_specTemp (t : Int) (h1 : -(2 ^ 63) ≤ t + 40) (h2 : t + 40 < 2 ^ 63) :
    (convertTemp t : Int) = specTemp t := by
  have hw : wrapInt intBits (t + 40) = t + 40 := by
    unfold wrapInt intBits
    norm_num
    omega
  have hspec : specTemp t = max 0 (min (t + 40) 255) := rfl
  show ((toUnsigned 8 (toUnsigned intBits
    (if (if wrapInt intBits (t + 40) < 0 then 0 else wrapInt intBits (t + 40)) > 255 then 255
      else (if wrapInt intBits (t + 40) < 0 then 0 else wrapInt intBits (t + 40)))) : Nat) : Int)
    = specTemp t
  rw [hw]
  rcases lt_or_le (t + 40) 0 with h | h
  · have hs : specTemp t = 0 := by rw [hspec]; omega
    rw [if_pos h, if_neg (by decide), hs]
    decide
  · rw [if_neg (not_lt.mpr h)]
    rcases lt_or_le 255 (t + 40) with h3 | h3
    · have hs : specTemp t = 255 := by rw [hspec]; omega
      rw [if_pos h3, hs]
      decide
    · have hs : specTemp t = t + 40 := by rw [hspec]; omega
      have hb : t + 40 < 2 ^ intBits := by unfold intBits; omega
      have hb8 : t + 40 < 2 ^ 8 := by omega
      rw [if_neg (not_lt.mpr h3), hs, toUnsigned_of_lt intBits _ h hb, toUnsigned_of_lt 8 _ h hb8]

/-- C16: `convertLevel` maps the levels -0.5, 0.0, 0.5, 1.0 and 1.5 to 0, 0,
5000, 10000 and 10000. -/
theorem convertLevel_boundary :
    convertLevel (F64.finite (-1 / 2)) = 0 ∧ convertLevel (F64.finite 0) = 0 ∧
    convertLevel (F64.finite (1 / 2)) = 5000 ∧ convertLevel (F64.finite 1) = 10000 ∧
    convertLevel (F64.finite (3 / 2)) = 10000 := by
  have h1 : (convertLevel (F64.finite (-1 / 2)) : Int) = 0 := by
    apply convertLevel_of_bounds <;> norm_num [clamp]
  have h2 : (convertLevel (F64.finite 0) : Int) = 0 := by
    apply convertLevel_of_bounds <;> norm_num [clamp]
  have h3 : (convertLevel (F64.finite (1 / 2)) : Int) = 5000 := by
    apply convertLevel_of_bounds <;> norm_num [clamp]
  have h4 : (convertLevel (F64.finite 1) : Int) = 10000 := by
    apply convertLevel_of_bounds <;> norm_num [clamp]
  have h5 : (convertLevel (F64.finite (3 / 2)) : Int) = 10000 := by
    apply convertLevel_of_bounds <;> norm_num [clamp]
  exact ⟨by exact_mod_cast h1, by exact_mod_cast h2, by exact_mod_cast h3,
    by exact_mod_cast h4, by exact_mod_cast h5⟩

/-- C17: `convertTemp` maps the temperatures -50, -40, 0, 215 and 300 to the
bytes 0, 0, 40, 255 and 255. -/
theorem convertTemp_boundary :
    convertTemp (-50) = 0 ∧ convertTemp (-40) = 0 ∧ convertTemp 0 = 40 ∧
    convertTemp 215 = 255 ∧ convertTemp 300 = 255 := by
  refine ⟨by decide, by decide, by decide, by decide, by decide⟩

/-- C18 (counterexample): the level 0.0007, that is the `float64`
`6456360425798343 / 2 ^ 63`, has the exact scaled value `7 - 656 / 2 ^ 63`,
whose integer part is 6; the `float64` product rounds to 7 and `convertLevel`
returns 7, which exceeds the exact scaled value. -/
theorem convertLevel_exceeds_scaled :
    F64.ofRat (7 / 10000) = F64.finite (6456360425798343 / 2 ^ 63) ∧
    convertLevel (F64.finite (6456360425798343 / 2 ^ 63)) = 7 ∧
    10000 * clamp (6456360425798343 / 2 ^ 63 : ℚ) 0 1 < 7 ∧
    truncate (10000 * clamp (6456360425798343 / 2 ^ 63 : ℚ) 0 1) = 6 := by
  have hc : clamp (6456360425798343 / 2 ^ 63 : ℚ) 0 1 = 6456360425798343 / 2 ^ 63 := by
    unfold clamp
    rw [min_eq_left (by norm_num), max_eq_right (by norm_num)]
  have h7 : (convertLevel (F64.finite (6456360425798343 / 2 ^ 63)) : Int) = 7 := by
    rw [convertLevel_finite, hc, product_7e4]
    exact Int.floor_intCast 7
  refine ⟨?_, by exact_mod_cast h7, by rw [hc]; norm_num, ?_⟩
  · unfold F64.ofRat
    rw [roundF64_7e4, if_pos]
    rw [abs_of_pos (by norm_num)]
    norm_num
  · rw [hc, truncate_of_nonneg _ (by norm_num), Int.floor_eq_iff]
    norm_num

/-- C18 (as amended): for every finite level, `convertLevel` returns the
integer part, truncated towards zero, of the `float64` product of 10000 and
`clamp(level, 0, 1)`, that is of the exact scaled value rounded to the nearest
`float64`. The result lies in 0..10000, so the conversion to 16 bits never
wraps; it is less than the exact scaled value by under 1 and exceeds it by at
most `2 ^ -40` (only when the product rounds up to an integer); and it is
non-decreasing in the level. -/
theorem convertLevel_integer_part (level : ℚ) :
    (convertLevel (F64.finite level) : Int) = truncate (roundF64 (10000 * clamp level 0 1)) ∧
    0 ≤ truncate (roundF64 (10000 * clamp level 0 1)) ∧
    truncate (roundF64 (10000 * clamp level 0 1)) ≤ 10000 ∧
    convertLevel (F64.finite level) ≤ 10000 ∧
    (convertLevel (F64.finite level) : ℚ) ≤ 10000 * clamp level 0 1 + 1 / 2 ^ 40 ∧
    10000 * clamp level 0 1 - (convertLevel (F64.finite level) : ℚ) < 1 ∧
    Monotone (fun q : ℚ => convertLevel (F64.finite q)) := by
  obtain ⟨hs0, hs1, hs⟩ := scaled_bounds level
  obtain ⟨hp0, hp1⟩ := product_bounds level
  have hfl := convertLevel_finite level
  have htr := truncate_of_nonneg _ hp0
  have herr := roundF64_error _ hs
  rw [abs_le] at herr
  have hle : ⌊roundF64 (10000 * clamp level 0 1)⌋ ≤ 10000 := by
    have h : (⌊roundF64 (10000 * clamp level 0 1)⌋ : ℚ) ≤ ((10000 : Int) : ℚ) := by
      push_cast
      exact le_trans (Int.floor_le _) hp1
    exact_mod_cast h
  have hcast : (convertLevel (F64.finite level) : ℚ)
      = ((⌊roundF64 (10000 * clamp level 0 1)⌋ : Int) : ℚ) := by
    rw [← hfl]
    norm_cast
  have hlow : ⌊10000 * clamp level 0 1⌋ ≤ ⌊roundF64 (10000 * clamp level 0 1)⌋ :=
    Int.le_floor.mpr (int_le_roundF64 _ hs _ (Int.floor_le _))
  refine ⟨by rw [hfl, htr], by rw [htr]; exact Int.floor_nonneg.mpr hp0, by rw [htr]; exact hle,
    ?_, ?_, ?_, ?_⟩
  · have : (convertLevel (F64.finite level) : Int) ≤ 10000 := by rw [hfl]; exact hle
    exact_mod_cast this
  · rw [hcast]
    have := Int.floor_le (roundF64 (10000 * clamp level 0 1))
    linarith [herr.2]
  · rw [hcast]
    have h1 := Int.lt_floor_add_one (10000 * clamp level 0 1)
    have h2 : ((⌊10000 * clamp level 0 1⌋ : Int) : ℚ)
        ≤ ((⌊roundF64 (10000 * clamp level 0 1)⌋ : Int) : ℚ) := by exact_mod_cast hlow
    linarith
  · intro a b hab
    have hm : (10000 : ℚ) * clamp a 0 1 ≤ 10000 * clamp b 0 1 :=
      mul_le_mul_of_nonneg_left (clamp_unit_mono hab) (by norm_num)
    have : (convertLevel (F64.finite a) : Int) ≤ (convertLevel (F64.finite b) : Int) := by
      rw [convertLevel_finite, convertLevel_finite]
      exact Int.floor_mono (roundF64_mono (scaled_bounds a).1 hm)
    exact_mod_cast this

/-- C19: on the nominal range -40..215 the temperature encoding loses
nothing: `convertTemp t - 40 = t`, so two nominal temperatures with the same
byte are equal, byte 0 is -40 °C and byte 255 is 215 °C; outside the range,
as long as `t + 40` does not overflow the machine integer, the byte is 0
below -40 and 255 above 215. -/
theorem convertTemp_lossless (t : Int) (hlo : -40 ≤ t) (hhi : t ≤ 215) :
    (convertTemp t : Int) - 40 = t ∧
    (∀ u : Int, -40 ≤ u → u ≤ 215 → convertTemp u = convertTemp t → u = t) ∧
    convertTemp (-40) = 0 ∧ convertTemp 215 = 255 ∧
    (∀ u : Int, -(2 ^ 63) ≤ u → u < -40 → convertTemp u = 0) ∧
    (∀ u : Int, 215 < u → u + 40 < 2 ^ 63 → convertTemp u = 255) := by
  have hnom : ∀ u : Int, -40 ≤ u → u ≤ 215 → (convertTemp u : Int) = u + 40 := by
    intro u h1 h2
    rw [convertTemp_eq_specTemp u (by omega) (by omega)]
    show max 0 (min (u + 40) 255) = u + 40
    omega
  refine ⟨by rw [hnom t hlo hhi]; omega, ?_, by decide, by decide, ?_, ?_⟩
  · intro u h1 h2 he
    have hu := hnom u h1 h2
    have ht := hnom t hlo hhi
    rw [he] at hu
    omega
  · intro u h1 h2
    have h := convertTemp_eq_specTemp u (by omega) (by omega)
    have hs : specTemp u = 0 := by
      show max 0 (min (u + 40) 255) = 0
      omega
    rw [hs] at h
    exact_mod_cast h
  · intro u h1 h2
    have h := convertTemp_eq_specTemp u (by omega) h2
    have hs : specTemp u = 255 := by
      show max 0 (min (u + 40) 255) = 255
      omega
    rw [hs] at h
    exact_mod_cast h

/-- C19 (witness): 20 °C is encoded as 60 and decoded back. -/
theorem convertTemp_lossless_witness :
    (-40 : Int) ≤ 20 ∧ (20 : Int) ≤ 215 ∧ (convertTemp 20 : Int) - 40 = 20 :=
  ⟨by decide, by decide, (convertTemp_lossless 20 (by decide) (by decide)).1⟩

/-! ## Stop -/

/-- C14: on every session state `Stop` returns normally with the session flag
clear and the 8 channel records as they were; on a session that is already
disabled it changes nothing. As an event of a system it leaves the goroutines
and the frames sent untouched as well. -/
theorem stop_clears_flag (e : Emulator) (sensors : Fin numSensors → FuelParams) (s : System) :
    Stop (some e) = Except.ok (some { Enabled := false, Sensors := e.Sensors }) ∧
    Stop (some { Enabled := false, Sensors := sensors })
      = Except.ok (some { Enabled := false, Sensors := sensors }) ∧
    (s.step Event.stop).dut.Enabled = false ∧
    (s.step Event.stop).dut.Sensors = s.dut.Sensors ∧
    (s.step Event.stop).tasks = s.tasks ∧
    (s.step Event.stop).sent = s.sent :=
  ⟨rfl, rfl, rfl, rfl, rfl, rfl⟩

/-! ## The scenario of the specification -/

/-- C15: with channel 0 enabled at level 0.25 and -10 °C, channel 3 enabled at
level 1.2 and 220 °C and every other channel disabled, one sweep submits
exactly two frames, in this order: identifier `B + 1` with bytes 0-1 =
`0xC4, 0x09` (2500 little-endian) and byte 6 = 30, then identifier `B + 4` with
bytes 0-1 = `0x10, 0x27` (10000 little-endian) and byte 6 = 255. -/
theorem scenario_sweep (others : Fin numSensors → F64 × Int) (msg : Message) (hc : msg.Clean) :
    framesOf (sweep (scenario others) msg).1
      = [{ ID := baseDUT + 1, Len := 8, Data := ![0xC4, 0x09, 0, 0, 0, 0, 30, 0] },
         { ID := baseDUT + 4, Len := 8, Data := ![0x10, 0x27, 0, 0, 0, 0, 255, 0] }] ∧
    0xC4 + 256 * 0x09 = 2500 ∧ 0x10 + 256 * 0x27 = 10000 ∧ baseDUT = 0x0CF60664 := by
  have hl0 : convertLevel (F64.finite (1 / 4)) = 2500 := by
    have h : (convertLevel (F64.finite (1 / 4)) : Int) = 2500 := by
      apply convertLevel_of_bounds <;> norm_num [clamp]
    exact_mod_cast h
  have hl3 : convertLevel (F64.ofRat (6 / 5)) = 10000 := by
    have hx : |(6 / 5 : ℚ)| < 2 ^ 14 := by rw [abs_of_pos (by norm_num)]; norm_num
    have h1 : (1 : ℚ) ≤ roundF64 (6 / 5) := by
      have := int_le_roundF64 (6 / 5) hx 1 (by norm_num)
      exact_mod_cast this
    have h2 : roundF64 (6 / 5) ≤ 2 := by
      have := roundF64_le_int (6 / 5) hx 2 (by norm_num)
      exact_mod_cast this
    have hfin : F64.ofRat (6 / 5) = F64.finite (roundF64 (6 / 5)) := by
      unfold F64.ofRat
      rw [if_pos]
      rw [abs_of_pos (by linarith)]
      calc roundF64 (6 / 5) ≤ 2 := h2
        _ < 2 ^ 1024 := by norm_num
    have hcl : clamp (roundF64 (6 / 5)) 0 1 = 1 := by
      unfold clamp
      rw [min_eq_right h1, max_eq_right zero_le_one]
    have h : (convertLevel (F64.finite (roundF64 (6 / 5))) : Int) = 10000 := by
      apply convertLevel_of_bounds
      · rw [hcl]; norm_num
      · rw [hcl]; norm_num
    rw [hfin]
    exact_mod_cast h
  have ht0 : convertTemp (-10) = 30 := by decide
  have ht3 : convertTemp 220 = 255 := by decide
  have hf : (List.finRange numSensors).filter (fun i => (scenario others i).Enabled)
      = [0, 3] := rfl
  have h0 : specFrame 0 (scenario others 0)
      = { ID := baseDUT + 1, Len := 8, Data := ![0xC4, 0x09, 0, 0, 0, 0, 30, 0] } := by
    show ({ ID := 0x0CF60664 + 1, Len := 8,
            Data := ![convertLevel (F64.finite (1 / 4)) % 256,
                      convertLevel (F64.finite (1 / 4)) / 256, 0, 0, 0, 0,
                      convertTemp (-10), 0] } : Message) = _
    rw [hl0, ht0]
    rfl
  have h3 : specFrame 3 (scenario others 3)
      = { ID := baseDUT + 4, Len := 8, Data := ![0x10, 0x27, 0, 0, 0, 0, 255, 0] } := by
    show ({ ID := 0x0CF60664 + 4, Len := 8,
            Data := ![convertLevel (F64.ofRat (6 / 5)) % 256,
                      convertLevel (F64.ofRat (6 / 5)) / 256, 0, 0, 0, 0,
                      convertTemp 220, 0] } : Message) = _
    rw [hl3, ht3]
    rfl
  refine ⟨?_, by decide, by decide, rfl⟩
  rw [(sweep_clean (scenario others) msg hc).1]
  unfold specSweepActions
  rw [hf, framesOf_pairs, List.map_cons, List.map_cons, List.map_nil, h0, h3]

/-- C15 (witness): the first sweep of the task, on its fresh buffer, with the
other channels at level 0 and 0 °C. -/
theorem scenario_sweep_witness :
    newMessage.Clean ∧
    framesOf (sweep (scenario (fun _ => (F64.finite 0, 0))) newMessage).1
      = [{ ID := baseDUT + 1, Len := 8, Data := ![0xC4, 0x09, 0, 0, 0, 0, 30, 0] },
         { ID := baseDUT + 4, Len := 8, Data := ![0x10, 0x27, 0, 0, 0, 0, 255, 0] }] :=
  ⟨newMessage_clean, (scenario_sweep (fun _ => (F64.finite 0, 0)) newMessage newMessage_clean).1⟩

/-! ## Start on an enabled session -/

/-- C11: `Start` with a device present on a session whose flag is already set
does nothing: it returns normally, creates no goroutine, submits no frame and
leaves the session flag and the channel records as they were. A call of
`Start` that does create a goroutine was made on a session whose flag was
clear (and with a device present), and it creates exactly one. -/
theorem start_enabled_noop (s : System) (d : Device) (h : s.dut.Enabled = true) :
    Start s (some d) = (none, s) ∧
    (Start s (some d)).2.tasks = s.tasks ∧
    (Start s (some d)).2.sent = s.sent ∧
    (Start s (some d)).2.dut.Enabled = s.dut.Enabled ∧
    (Start s (some d)).2.dut.Sensors = s.dut.Sensors ∧
    (∀ (s2 : System) (dev : Option Device), (Start s2 dev).2.tasks ≠ s2.tasks →
      s2.dut.Enabled = false ∧ ∃ d2, dev = some d2 ∧
        (Start s2 dev).2.tasks = s2.tasks ++ [Task.spawned d2]) := by
  have h1 : Start s (some d) = (none, s) := by simp [Start, h]
  refine ⟨h1, by rw [h1], by rw [h1], by rw [h1], by rw [h1], ?_⟩
  intro s2 dev hne
  cases dev with
  | none => exact absurd rfl hne
  | some d2 =>
    by_cases h2 : s2.dut.Enabled = true
    · exact absurd (by simp [Start, h2]) hne
    · have h3 : s2.dut.Enabled = false := by simpa using h2
      exact ⟨h3, d2, rfl, by simp [Start, h3]⟩

/-- C11 (witness): a second `Start` on a session whose task has set the flag. -/
theorem start_enabled_noop_witness :
    (System.run fresh [Event.start someDevice, Event.task 0]).dut.Enabled = true ∧
    Start (System.run fresh [Event.start someDevice, Event.task 0]) (some someDevice)
      = (none, System.run fresh [Event.start someDevice, Event.task 0]) :=
  ⟨rfl, (start_enabled_noop _ someDevice rfl).1⟩

/-! ## Lemmas on a task that finds the flag clear -/

theorem unvisited_cons (next : Nat) (h : next < numSensors) :
    unvisited next = ⟨next, h⟩ :: unvisited (next + 1) := by
  have h8 : next < 8 := h
  interval_cases next <;> rfl

theorem unvisited_nil (next : Nat) (h : numSensors ≤ next) : unvisited next = [] := by
  unfold unvisited
  apply List.drop_eq_nil_of_le
  rw [List.length_finRange]
  exact h

theorem framesOf_sensorBody_length (i : Fin numSensors) (sens : FuelParams) (msg : Message) :
    (framesOf (sensorBody i sens msg).1).length = if sens.Enabled then 1 else 0 := by
  unfold sensorBody
  by_cases he : sens.Enabled = true
  · simp [he, framesOf]
  · simp [he, framesOf]

theorem framesOf_sweepFrom_length (snap : Fin numSensors → FuelParams)
    (chans : List (Fin numSensors)) (msg : Message) :
    (framesOf (sweepFrom snap chans msg).1).length
      = (chans.filter (fun i => (snap i).Enabled)).length := by
  induction chans generalizing msg with
  | nil => rfl
  | cons i rest ih =>
    show (framesOf ((sensorBody i (snap i) msg).1
      ++ (sweepFrom snap rest (sensorBody i (snap i) msg).2).1)).length = _
    rw [framesOf_append, List.length_append, ih, framesOf_sensorBody_length]
    by_cases he : (snap i).Enabled = true
    · rw [List.filter_cons_of_pos (by simpa using he), if_pos he, List.length_cons]
      omega
    · rw [List.filter_cons_of_neg (by simpa using he), if_neg he]
      omega

/-- One step of a task that has begun, on an emulator whose flag is clear:
the emulator is untouched, the frames sent are the next ones of the rest of the
pass, and the task is one step nearer to its return. -/
theorem task_step_flag_clear (dut : Emulator) (t : Task) (hflag : dut.Enabled = false)
    (hb : t.begun = true) :
    (Task.step dut t).1 = dut ∧ (Task.step dut t).2.1.begun = true ∧
    framesOf t.rest = framesOf (Task.step dut t).2.2 ++ framesOf (Task.step dut t).2.1.rest ∧
    (Task.step dut t).2.1.fuel ≤ t.fuel - 1 := by
  cases t with
  | spawned dev => exact absurd hb (by simp [Task.begun])
  | loopHead dev msg =>
    have hs : Task.step dut (Task.loopHead dev msg) = (dut, Task.finished, []) := by
      simp [Task.step, hflag]
    rw [hs]
    exact ⟨rfl, rfl, rfl, Nat.zero_le _⟩
  | finished => exact ⟨rfl, rfl, rfl, Nat.zero_le _⟩
  | inSweep dev msg snap next =>
    by_cases h : next < numSensors
    · have hs : Task.step dut (Task.inSweep dev msg snap next)
          = (dut, Task.inSweep dev (sensorBody ⟨next, h⟩ (snap ⟨next, h⟩) msg).2 snap (next + 1),
              (sensorBody ⟨next, h⟩ (snap ⟨next, h⟩) msg).1) := by
        simp [Task.step, h]
      rw [hs]
      refine ⟨rfl, rfl, ?_, ?_⟩
      · show framesOf (sweepFrom snap (unvisited next) msg).1 = _
        rw [unvisited_cons next h, ← framesOf_append]
        rfl
      · show (numSensors - (next + 1)) + 2 ≤ (numSensors - next) + 2 - 1
        omega
    · have hs : Task.step dut (Task.inSweep dev msg snap next)
          = (dut, Task.loopHead dev msg, []) := by
        simp [Task.step, h]
      rw [hs]
      refine ⟨rfl, rfl, ?_, ?_⟩
      · show framesOf (sweepFrom snap (unvisited next) msg).1 = _
        rw [unvisited_nil next (not_lt.mp h)]
        rfl
      · show 1 ≤ (numSensors - next) + 2 - 1
        omega

theorem task_fuel_le (t : Task) : t.fuel ≤ 10 := by
  cases t with
  | spawned dev => exact Nat.zero_le _
  | loopHead dev msg => show 1 ≤ 10; omega
  | finished => exact Nat.zero_le _
  | inSweep dev msg snap next => show (8 - next) + 2 ≤ 10; omega

theorem task_rest_length_le (t : Task) : (framesOf t.rest).length ≤ 8 := by
  cases t with
  | spawned dev => exact Nat.zero_le _
  | loopHead dev msg => exact Nat.zero_le _
  | finished => exact Nat.zero_le _
  | inSweep dev msg snap next =>
    show (framesOf (sweepFrom snap (unvisited next) msg).1).length ≤ 8
    rw [framesOf_sweepFrom_length]
    calc ((unvisited next).filter (fun i => (snap i).Enabled)).length
        ≤ (unvisited next).length := List.length_filter_le _ _
      _ ≤ (List.finRange numSensors).length := by
          unfold unvisited
          rw [List.length_drop]
          omega
      _ = 8 := List.length_finRange 8

theorem system_run_cons (s : System) (ev : Event) (evs : List Event) :
    s.run (ev :: evs) = (s.step ev).run evs := rfl

/-- A call of `Stop` or of a mutator changes neither the session flag of a
disabled session, nor the goroutines, nor the frames sent. -/
theorem system_step_call (s : System) (ev : Event) (hflag : s.dut.Enabled = false)
    (hns : ev.isStart = false) (hnt : ∀ k, ev ≠ Event.task k) :
    (s.step ev).dut.Enabled = false ∧ (s.step ev).tasks = s.tasks ∧
    (s.step ev).sent = s.sent := by
  cases ev with
  | start dev => exact absurd hns (by simp [Event.isStart])
  | task k => exact absurd rfl (hnt k)
  | stop => exact ⟨rfl, rfl, rfl⟩
  | enable n =>
    by_cases h : n < numSensors <;> simp [System.step, System.afterCall, Enable, h, hflag]
  | disable n =>
    by_cases h : n < numSensors <;> simp [System.step, System.afterCall, Disable, h, hflag]
  | setLevel n l =>
    by_cases h : n < numSensors <;> simp [System.step, System.afterCall, SetLevel, h, hflag]
  | setTemperature n t =>
    by_cases h : n < numSensors <;>
      simp [System.step, System.afterCall, SetTemperature, h, hflag]
  | set n l t =>
    by_cases h : n < numSensors <;>
      simp [System.step, System.afterCall, Set, SetLevel, SetTemperature, h, hflag]

/-- One event other than `Start` in a system whose flag is clear and whose
only goroutine has begun. -/
theorem system_step_flag_clear (s : System) (t : Task) (ev : Event)
    (hflag : s.dut.Enabled = false) (htasks : s.tasks = [t]) (hb : t.begun = true)
    (hns : ev.isStart = false) :
    ∃ (t2 : Task) (fb : List Message),
      (s.step ev).dut.Enabled = false ∧ (s.step ev).tasks = [t2] ∧ t2.begun = true ∧
      (s.step ev).sent = s.sent ++ fb ∧ framesOf t.rest = fb ++ framesOf t2.rest ∧
      (ev = Event.task 0 → t2.fuel ≤ t.fuel - 1) := by
  by_cases hk : ∃ k, ev = Event.task k
  · obtain ⟨k, rfl⟩ := hk
    cases k with
    | zero =>
      obtain ⟨h1, h2, h3, h4⟩ := task_step_flag_clear s.dut t hflag hb
      refine ⟨(Task.step s.dut t).2.1, framesOf (Task.step s.dut t).2.2, ?_, ?_, h2, ?_, h3,
        fun _ => h4⟩
      · simp [System.step, htasks, h1, hflag]
      · simp [System.step, htasks]
      · simp [System.step, htasks]
    | succ k =>
      refine ⟨t, [], ?_, ?_, hb, ?_, rfl, fun h => absurd h (by simp)⟩
      · simp [System.step, htasks, hflag]
      · simp [System.step, htasks]
      · simp [System.step, htasks]
  · have hnt : ∀ k, ev ≠ Event.task k := fun k h => hk ⟨k, h⟩
    obtain ⟨h1, h2, h3⟩ := system_step_call s ev hflag hns hnt
    exact ⟨t, [], h1, by rw [h2, htasks], hb, by rw [h3, List.append_nil], rfl,
      fun h => absurd h (hnt 0)⟩

/-- Any sequence of events without `Start`, from a system whose flag is clear
and whose only goroutine has begun: the frames sent are a prefix of the frames
of the rest of the pass. -/
theorem system_run_flag_clear (evs : List Event) :
    ∀ (s : System) (t : Task), s.dut.Enabled = false → s.tasks = [t] → t.begun = true →
      (∀ ev ∈ evs, ev.isStart = false) →
      ∃ k, (s.run evs).sent = s.sent ++ (framesOf t.rest).take k := by
  induction evs with
  | nil =>
    intro s t _ _ _ _
    exact ⟨0, by simp [System.run]⟩
  | cons ev rest ih =>
    intro s t hflag htasks hb hns
    obtain ⟨t2, fb, h1, h2, h3, h4, h5, _⟩ :=
      system_step_flag_clear s t ev hflag htasks hb (hns ev (List.mem_cons_self _ _))
    obtain ⟨k, hk⟩ := ih (s.step ev) t2 h1 h2 h3
      (fun e he => hns e (List.mem_cons_of_mem _ he))
    refine ⟨fb.length + k, ?_⟩
    rw [system_run_cons, hk, h4, h5, List.take_append, List.append_assoc]

/-- Enough steps of the goroutine alone, from such a system: the goroutine has
returned and the frames sent are exactly those of the rest of the pass. -/
theorem system_run_task_flag_clear (n : Nat) :
    ∀ (s : System) (t : Task), s.dut.Enabled = false → s.tasks = [t] → t.begun = true →
      t.fuel ≤ n →
      (s.run (List.replicate n (Event.task 0))).tasks = [Task.finished] ∧
      (s.run (List.replicate n (Event.task 0))).sent = s.sent ++ framesOf t.rest := by
  induction n with
  | zero =>
    intro s t _ htasks hb hf
    cases t with
    | spawned dev => exact absurd hb (by simp [Task.begun])
    | loopHead dev msg => exact absurd hf (by simp [Task.fuel])
    | inSweep dev msg snap next => exact absurd hf (by simp [Task.fuel])
    | finished => exact ⟨htasks, by simp [System.run, Task.rest, framesOf]⟩
  | succ n ih =>
    intro s t hflag htasks hb hf
    obtain ⟨t2, fb, h1, h2, h3, h4, h5, h6⟩ :=
      system_step_flag_clear s t (Event.task 0) hflag htasks hb rfl
    have hf2 : t2.fuel ≤ n := by
      have := h6 rfl
      omega
    obtain ⟨ha, hb2⟩ := ih (s.step (Event.task 0)) t2 h1 h2 h3 hf2
    rw [List.replicate_succ, system_run_cons]
    exact ⟨ha, by rw [hb2, h4, h5, List.append_assoc]⟩

/-! ## Two calls of Start -/

/-- C12 (evaluation at the failing input): on a freshly created session two
calls of `Start` in succession, before the first goroutine has run, both find
the flag clear and create a goroutine each; once both have begun, two
background tasks are active, and with channel 0 enabled each submits the frame
of channel 0, so the frame stream is duplicated. -/
theorem start_twice_two_tasks :
    fresh.dut.Enabled = false ∧ fresh.tasks = [] ∧
    (fresh.run [Event.start someDevice, Event.start someDevice]).tasks
      = [Task.spawned someDevice, Task.spawned someDevice] ∧
    (fresh.run [Event.start someDevice, Event.start someDevice]).activeTasks = 2 ∧
    (fresh.run [Event.enable 0, Event.start someDevice, Event.start someDevice,
      Event.task 0, Event.task 1, Event.task 0, Event.task 1]).activeTasks = 2 ∧
    (fresh.run [Event.enable 0, Event.start someDevice, Event.start someDevice,
      Event.task 0, Event.task 1, Event.task 0, Event.task 1,
      Event.task 0, Event.task 1]).activeTasks = 2 ∧
    (fresh.run [Event.enable 0, Event.start someDevice, Event.start someDevice,
      Event.task 0, Event.task 1, Event.task 0, Event.task 1,
      Event.task 0, Event.task 1]).sent.map Message.ID = [0x0CF60665, 0x0CF60665] := by
  refine ⟨rfl, rfl, rfl, by decide, by decide, by decide, by decide⟩

/-! ## Stop during a pass -/

/-- C13 (counterexample): with all eight channels enabled, `Stop` is called
after the task has sent the frame of channel 0; the flag is clear and one task
is active. The task then sends the frames of channels 1 to 7, seven more
frames and not at most one, and returns. -/
theorem stop_mid_pass_seven_more :
    (fresh.run stopAfterFirstFrame).dut.Enabled = false ∧
    (fresh.run stopAfterFirstFrame).activeTasks = 1 ∧
    (fresh.run stopAfterFirstFrame).sent.map Message.ID = [0x0CF60665] ∧
    (((fresh.run stopAfterFirstFrame).run (List.replicate 7 (Event.task 0))).sent.map Message.ID
      = [0x0CF60665, 0x0CF60666, 0x0CF60667, 0x0CF60668, 0x0CF60669, 0x0CF6066A, 0x0CF6066B,
         0x0CF6066C]) ∧
    ((fresh.run stopAfterFirstFrame).run (List.replicate 7 (Event.task 0))).activeTasks = 1 ∧
    ((fresh.run stopAfterFirstFrame).run (List.replicate 9 (Event.task 0))).activeTasks = 0 ∧
    ¬ (((fresh.run stopAfterFirstFrame).run (List.replicate 9 (Event.task 0))).sent.length
        ≤ (fresh.run stopAfterFirstFrame).sent.length + 1) := by
  refine ⟨by decide, by decide, by decide, by decide, by decide, by decide, by decide⟩

/-- C13 (as amended): once the session flag is clear while the only
background task has begun, and as long as `Start` is not called again, the
frames submitted from then on, under any interleaving with `Stop` and the
mutators, are an initial part of the frames of the rest of the pass in
progress; left to run, the task completes that pass, submitting one frame for
every enabled channel of the pass not yet visited (at most 8 frames) and no
other frame, and has returned within 10 steps. -/
theorem stop_completes_pass (s : System) (t : Task) (hflag : s.dut.Enabled = false)
    (htasks : s.tasks = [t]) (hb : t.begun = true) :
    (∀ evs : List Event, (∀ ev ∈ evs, ev.isStart = false) →
      ∃ k, (s.run evs).sent = s.sent ++ (framesOf t.rest).take k) ∧
    (∀ n, 10 ≤ n →
      (s.run (List.replicate n (Event.task 0))).tasks = [Task.finished] ∧
      (s.run (List.replicate n (Event.task 0))).sent = s.sent ++ framesOf t.rest) ∧
    (framesOf t.rest).length ≤ 8 ∧
    (∀ dev msg snapshot next, t = Task.inSweep dev msg snapshot next →
      (framesOf t.rest).length
        = ((unvisited next).filter (fun i => (snapshot i).Enabled)).length) ∧
    (∀ dev msg, t = Task.loopHead dev msg → framesOf t.rest = []) := by
  refine ⟨fun evs hns => system_run_flag_clear evs s t hflag htasks hb hns, ?_,
    task_rest_length_le t, ?_, ?_⟩
  · intro n hn
    exact system_run_task_flag_clear n s t hflag htasks hb (le_trans (task_fuel_le t) hn)
  · intro dev msg snapshot next ht
    subst ht
    exact framesOf_sweepFrom_length snapshot (unvisited next) msg
  · intro dev msg ht
    subst ht
    rfl

/-- C13 (witness): the session stopped after the frame of channel 0; ten
steps later the task has returned. -/
theorem stop_completes_pass_witness :
    (fresh.run stopAfterFirstFrame).dut.Enabled = false ∧
    (fresh.run stopAfterFirstFrame).tasks
      = [Task.inSweep someDevice (sensorBody 0 ⟨true, F64.finite 0, 0⟩ newMessage).2
          (fresh.run stopAfterFirstFrame).dut.Sensors 1] ∧
    ((fresh.run stopAfterFirstFrame).run (List.replicate 10 (Event.task 0))).tasks
      = [Task.finished] :=
  ⟨rfl, rfl, ((stop_completes_pass (fresh.run stopAfterFirstFrame)
      (Task.inSweep someDevice (sensorBody 0 ⟨true, F64.finite 0, 0⟩ newMessage).2
        (fresh.run stopAfterFirstFrame).dut.Sensors 1) rfl rfl rfl).2.1 10 (le_refl 10)).1⟩

end Dutem
